import Mathlib

/-!
Verification of the lepsox row-validation and QA engine.

This file shallowly embeds the Python sources under `src/lepsox/` into Lean:
text cells are lists of characters (`Str`), pandas `NaN` cells are the
`CellValue.blank` constructor, validator functions become Lean functions on
`CellValue` and a row context, and the dataset-wide QA pass becomes a pure
function on a list of row results.  Machine-specific behaviour (the `datetime`
library, the iNaturalist and LLM oracles) is made explicit: dates are
`DateV` records, "today" is a parameter, and the oracles are function-valued
parameters whose calls may return `Except.error` (a raised exception).
-/

namespace Lepsox

/-- Python strings, modelled as lists of characters (ASCII in this data set). -/
abbrev Str := List Char

/-- Python `str.upper()` (ASCII). -/
def pyUpper (s : Str) : Str := s.map Char.toUpper

/-- Python `str.lower()` (ASCII). -/
def pyLower (s : Str) : Str := s.map Char.toLower

/-- Python `str.strip()`: remove leading and trailing whitespace. -/
def pyStrip (s : Str) : Str :=
  ((s.dropWhile Char.isWhitespace).reverse.dropWhile Char.isWhitespace).reverse

/-- Python `str.capitalize()`: first character uppercased, the rest lowercased. -/
def pyCapitalize (s : Str) : Str :=
  match s with
  | [] => []
  | c :: rest => c.toUpper :: rest.map Char.toLower

/-- `str.split(sep)` for a one-character separator (used as `date_str.split('-')`). -/
def splitChar (sep : Char) (s : Str) : List Str :=
  match s with
  | [] => [[]]
  | c :: rest =>
    let r := splitChar sep rest
    if c = sep then [] :: r
    else match r with
      | [] => [[c]]
      | h :: t => (c :: h) :: t

/-- The ASCII digit character for a value below ten. -/
def digitChar (k : Nat) : Char := Char.ofNat (48 + k)

/-- Decimal rendering, fuel-indexed for structural recursion (the fuel always
suffices at call sites). -/
def natToStrAux : Nat → Nat → Str
  | 0, _ => []
  | fuel + 1, n =>
    if n < 10 then [digitChar n]
    else natToStrAux fuel (n / 10) ++ [digitChar (n % 10)]

/-- Python `str(n)` for a natural number. -/
def natToStr (n : Nat) : Str := natToStrAux (n + 1) n

/-- All characters are ASCII decimal digits. -/
def allDigits (s : Str) : Bool := s.all Char.isDigit

/-- Numeric value of a digit string (most significant first). -/
def natOfDigits (s : Str) : Nat :=
  s.foldl (fun acc c => acc * 10 + (c.toNat - '0'.toNat)) 0

/-- Python `int(s)` restricted to the digit-only strings produced by the
regex-guarded call sites in the source (`date_parts` pieces); a non-digit or
empty string raises, which the callers catch. -/
def parseIntDigits (s : Str) : Option Nat :=
  if s ≠ [] ∧ allDigits s then some (natOfDigits s) else none

/-- Calendar dates as used by `datetime`. -/
structure DateV where
  year : Nat
  month : Nat
  day : Nat
deriving DecidableEq, Repr

/-- Encoding of a date used for comparisons; faithful to `datetime` ordering
for calendar dates (`month ≤ 12`, `day ≤ 31`). -/
def DateV.encode (d : DateV) : Nat := d.year * 10000 + d.month * 100 + d.day

/-- `datetime.max` (year 9999), the sentinel used by `_find_earliest_record`. -/
def dateMax : DateV := ⟨9999, 12, 31⟩

/-- Gregorian leap-year rule (as implemented by `datetime`). -/
def isLeap (y : Nat) : Bool := y % 4 = 0 ∧ (y % 100 ≠ 0 ∨ y % 400 = 0)

/-- Days in a month (as implemented by `datetime`). -/
def daysInMonth (y m : Nat) : Nat :=
  if m = 2 then (if isLeap y then 29 else 28)
  else if m = 4 ∨ m = 6 ∨ m = 9 ∨ m = 11 then 30
  else 31

/-- The English month abbreviations recognised by `strptime`'s `%b`
(case-insensitively), in month order. -/
def monthAbbrevs : List Str :=
  ["Jan".data, "Feb".data, "Mar".data, "Apr".data, "May".data, "Jun".data,
   "Jul".data, "Aug".data, "Sep".data, "Oct".data, "Nov".data, "Dec".data]

/-- `%b`: month number from a (case-insensitive) three-letter abbreviation. -/
def monthOfAbbrev (s : Str) : Option Nat :=
  ((monthAbbrevs.map pyLower).indexOf? (pyLower s)).map (· + 1)

/-- `strptime`'s `%d` field: one or two digits, value 1..31 (the `_strptime`
regex `3[01]|[12]\d|0[1-9]|[1-9]`). -/
def parseDayField (s : Str) : Option Nat :=
  if s ≠ [] ∧ s.length ≤ 2 ∧ allDigits s ∧ 1 ≤ natOfDigits s ∧ natOfDigits s ≤ 31
  then some (natOfDigits s) else none

/-- `datetime.strptime(date_str, "%d-%b-%y")`: day, dash, month abbreviation,
dash, exactly two year digits; `%y` maps 00-68 to 20xx and 69-99 to 19xx; the
resulting day must exist in the resulting month (`datetime` validation). -/
def strptimeDdMmmYy (s : Str) : Option DateV :=
  match splitChar '-' s with
  | [ds, ms, ys] =>
    match parseDayField ds, monthOfAbbrev ms with
    | some d, some m =>
      if ys.length = 2 ∧ allDigits ys then
        let yy := natOfDigits ys
        let y := if yy ≤ 68 then 2000 + yy else 1900 + yy
        if d ≤ daysInMonth y m then some ⟨y, m, d⟩ else none
      else none
    | _, _ => none
  | _ => none

/-- Cell values as they occur in the pandas data frame rows: `blank` is a
missing cell (pandas `NaN`), strings, integers and Excel datetimes. -/
inductive CellValue where
  | blank
  | str (s : Str)
  | int (n : Int)
  | date (d : DateV)
deriving DecidableEq, Repr

/-- `pd.isna(value) or value == ''`, the blank test used by every validator. -/
def isBlankCell (v : CellValue) : Bool :=
  match v with
  | .blank => true
  | .str s => s = []
  | _ => false

/-- Decimal rendering of an integer (for `str(...)` and f-strings). -/
def intToStr (n : Int) : Str :=
  if n < 0 then '-' :: natToStr n.natAbs else natToStr n.natAbs

/-- Zero-padded two-digit rendering (for `strftime`). -/
def pad2 (n : Nat) : Str :=
  if n < 10 then '0' :: natToStr n else natToStr n

/-- Zero-padded four-digit rendering (for `str(datetime)`). -/
def pad4 (n : Nat) : Str :=
  if n < 10 then '0' :: '0' :: '0' :: natToStr n
  else if n < 100 then '0' :: '0' :: natToStr n
  else if n < 1000 then '0' :: natToStr n
  else natToStr n

/-- `str(datetime(...))` for the midnight timestamps Excel cells carry:
`"YYYY-MM-DD 00:00:00"`. -/
def datetimeStr (d : DateV) : Str :=
  pad4 d.year ++ ('-' :: pad2 d.month) ++ ('-' :: pad2 d.day) ++ " 00:00:00".data

/-- Python `str(value)` on a cell: `str(nan)` is `"nan"`. -/
def pyStrOf (v : CellValue) : Str :=
  match v with
  | .blank => "nan".data
  | .str s => s
  | .int n => intToStr n
  | .date d => datetimeStr d

/-- Python truthiness of a raw cell value: `NaN` is truthy (it is a float),
`''` and `0` are falsy. -/
def cellTruthy (v : CellValue) : Bool :=
  match v with
  | .blank => true
  | .str s => s ≠ []
  | .int n => n ≠ 0
  | .date _ => true

/-- One spreadsheet row: the 16 fixed columns, raw cell values. -/
structure RawRow where
  zone : CellValue := .blank
  country : CellValue := .blank
  state : CellValue := .blank
  family : CellValue := .blank
  genus : CellValue := .blank
  species : CellValue := .blank
  subspecies : CellValue := .blank
  county : CellValue := .blank
  stateRecord : CellValue := .blank
  countyRecord : CellValue := .blank
  specificLocation : CellValue := .blank
  firstDate : CellValue := .blank
  lastDate : CellValue := .blank
  name : CellValue := .blank
  comments : CellValue := .blank
  year : CellValue := .blank
deriving DecidableEq, Repr

/-- `df.iloc[idx]` (all source accesses are in range). -/
def dfRow (df : List RawRow) (idx : Nat) : RawRow := df.getD idx {}

/-- Classification of a proposed value change (`correction_type` strings). -/
inductive CorrType where
  | normalization
  | correction
deriving DecidableEq, Repr

/-- The `metadata` dictionary of a `ValidationResult`, flattened into the keys
the validators actually write. Absent keys are `false`/`none`. -/
structure Meta where
  needsInatCheck : Bool := false
  needsInatVerification : Bool := false
  needsHumanReview : Bool := false
  aiShortened : Bool := false
  needsManualShortening : Bool := false
  hasGpsCoords : Bool := false
  needsContributorCheck : Bool := false
  inatTaxonId : Option Nat := none
  inatPlaceId : Option Nat := none
  inatRank : Option Str := none
  inatDisplayName : Option Str := none
  inatCommonName : Option Str := none
  suggestedFamily : Option Str := none
  inatExistingCount : Option Nat := none
  inatQueryUrl : Option Str := none
  validatedTrinomial : Option Str := none
  datetimeV : Option DateV := none
deriving DecidableEq, Repr

/-- `models/validation_result.py`: container for one field's validation
outcome. `correction_type` is not initialised by `__init__`; validators assign
it at most once, so the unset state is `none` here. -/
structure ValidationResult where
  fieldName : Str
  value : CellValue
  isValid : Bool := true
  errors : List Str := []
  warnings : List Str := []
  correction : Option CellValue := none
  correctionType : Option CorrType := none
  meta : Meta := {}
deriving DecidableEq, Repr

/-- The per-row results dictionary built by `validate_row` and mutated by the
QA agent. `hallucinationDetected` models the row-level
`metadata['hallucination_detected']` key the QA pass may add. -/
structure RowResult where
  rowIndex : Nat
  isValid : Bool := true
  errors : List Str := []
  warnings : List Str := []
  corrections : List (Str × CellValue) := []
  metadataMap : List (Str × Meta) := []
  needsReview : Bool := false
  fieldResults : List (Str × ValidationResult) := []
  hallucinationDetected : Bool := false
deriving DecidableEq, Repr

/-- Dictionary lookup on an association list (keys are unique at call sites,
Python dict semantics). -/
def lookupAssoc {α : Type} (l : List (Str × α)) (k : Str) : Option α :=
  match l with
  | [] => none
  | (k₂, v) :: rest => if k₂ = k then some v else lookupAssoc rest k

/-- Python `del d[k]` on an association list with unique keys. -/
def eraseAssoc {α : Type} (l : List (Str × α)) (k : Str) : List (Str × α) :=
  match l with
  | [] => []
  | (k₂, v) :: rest => if k₂ = k then rest else (k₂, v) :: eraseAssoc rest k

/-! ### `agents/qa_agent.py` — the dataset QA pass -/

/-- `_group_by_species`: the species key of one row, or `none` when any of
Family/Genus/Species is missing (the row is skipped). -/
def speciesKeyOf (row : RawRow) : Option Str :=
  let family := pyStrip (pyStrOf row.family)
  let genus := pyStrip (pyStrOf row.genus)
  let species := pyStrip (pyStrOf row.species)
  let subspecies := pyStrip (pyStrOf row.subspecies)
  if family = [] ∨ genus = [] ∨ species = [] then none
  else some (family ++ '|' :: genus ++ '|' :: species ++ '|' :: subspecies)

/-- `species_groups.setdefault(key, []).append(i)` on an insertion-ordered
dictionary represented as an association list. -/
def assocAppend (groups : List (Str × List Nat)) (k : Str) (n : Nat) :
    List (Str × List Nat) :=
  match groups with
  | [] => [(k, [n])]
  | (k₂, l) :: rest =>
    if k₂ = k then (k₂, l ++ [n]) :: rest else (k₂, l) :: assocAppend rest k n

/-- The loop body of `_group_by_species` over `df.iterrows()`. -/
def groupRows : Nat → List RawRow → List (Str × List Nat) → List (Str × List Nat)
  | _, [], groups => groups
  | i, row :: rest, groups =>
    match speciesKeyOf row with
    | none => groupRows (i + 1) rest groups
    | some k => groupRows (i + 1) rest (assocAppend groups k i)

/-- `_group_by_species(df)`. -/
def groupBySpecies (df : List RawRow) : List (Str × List Nat) := groupRows 0 df []

/-- `parse_date` inside `_find_earliest_record`: `str(...).strip()`, the
empty/`'nan'` guard, then `strptime(date_str, "%d-%b-%y")`; any parse failure
yields `None`. -/
def parseDateQA (v : CellValue) : Option DateV :=
  let t := pyStrip (pyStrOf v)
  if t = [] ∨ t = "nan".data then none
  else strptimeDdMmmYy t

/-- First component of the Python sort key `(x[1] is None, ...)`
(`False < True` becomes `0 < 1`). -/
def qaNoneBit (o : Option DateV) : Nat := if o.isSome then 0 else 1

/-- Second component: the parsed date, with `datetime.max` substituted for
`None` (a parsed `datetime` is always truthy). -/
def qaDateNat (o : Option DateV) : Nat := (o.getD dateMax).encode

/-- The full sort key of one `(idx, parsed_date, position)` entry. -/
def entryKey (x : Nat × Option DateV × Nat) : Nat × Nat × Nat :=
  (qaNoneBit x.2.1, qaDateNat x.2.1, x.2.2)

/-- Lexicographic order on number triples (Python tuple comparison). -/
def lex3Le (a b : Nat × Nat × Nat) : Prop :=
  a.1 < b.1 ∨ (a.1 = b.1 ∧ (a.2.1 < b.2.1 ∨ (a.2.1 = b.2.1 ∧ a.2.2 ≤ b.2.2)))

instance : DecidableRel lex3Le := fun a b => by unfold lex3Le; infer_instance

/-- The comparison `date_list.sort(key=...)` sorts by. -/
def qaLe (a b : Nat × Option DateV × Nat) : Prop := lex3Le (entryKey a) (entryKey b)

instance : DecidableRel qaLe := fun a b => by unfold qaLe; infer_instance

instance : IsTotal (Nat × Option DateV × Nat) qaLe :=
  ⟨by intro a b; unfold qaLe lex3Le; omega⟩

instance : IsTrans (Nat × Option DateV × Nat) qaLe :=
  ⟨by intro a b c; unfold qaLe lex3Le; omega⟩

/-- `_find_earliest_record`: build `(idx, parsed_date, position)` entries,
sort by `(date is None, date or datetime.max, position)` and return the first
entry's row index.  `list.sort` is modelled by `insertionSort`; the sort keys
of distinct entries differ (positions are distinct), so every correct sort
returns the same list. -/
def findEarliestRecord (df : List RawRow) (rowIndices : List Nat) : Nat :=
  let dateList := rowIndices.enum.map
    (fun p => (p.2, parseDateQA (dfRow df p.2).firstDate, p.1))
  let sorted := List.insertionSort qaLe dateList
  (sorted.headD (0, none, 0)).1

/-- The affirmative `State Record`/`County Record` markings
(`['Y', 'YES', '1', 'TRUE']`). -/
def affirmativeVals : List Str := ["Y".data, "YES".data, "1".data, "TRUE".data]

/-- `str(...).strip().upper() in ['Y', 'YES', '1', 'TRUE']`. -/
def isAffirmative (v : CellValue) : Bool :=
  pyUpper (pyStrip (pyStrOf v)) ∈ affirmativeVals

/-- The duplicate state record error message (f-string with `earliest_idx+1`). -/
def dupStateMsg (earliestIdx : Nat) : Str :=
  "State Record: Duplicate state record for species. Only row ".data
    ++ natToStr (earliestIdx + 1)
    ++ " (earliest date) should be marked as state record.".data

/-- The duplicate county record error message. -/
def dupCountyMsg (county : Str) (earliestIdx : Nat) : Str :=
  "County Record: Duplicate county record for species in ".data ++ county
    ++ ". Only row ".data ++ natToStr (earliestIdx + 1)
    ++ " (earliest date) should be marked as county record.".data

/-- The QA mutation applied to a flagged row result: `is_valid = False` and
the duplicate-record error appended. -/
def flagResult (r : RowResult) (msg : Str) : RowResult :=
  { r with isValid := false, errors := r.errors ++ [msg] }

/-- `_find_result_index`: position of the first result whose `row_index`
matches. -/
def findResultIndex : List RowResult → Nat → Option Nat
  | [], _ => none
  | r :: rest, idx =>
    if r.rowIndex = idx then some 0 else (findResultIndex rest idx).map (· + 1)

/-- In-place update of the list entry at a position. -/
def modifyAt : List RowResult → Nat → (RowResult → RowResult) → List RowResult
  | [], _, _ => []
  | r :: rest, 0, f => f r :: rest
  | r :: rest, j + 1, f => r :: modifyAt rest j f

/-- `result_idx = _find_result_index(...); if result_idx is not None: mutate`. -/
def flagRowAt (results : List RowResult) (idx : Nat) (msg : Str) :
    List RowResult :=
  match findResultIndex results idx with
  | some j => modifyAt results j (fun r => flagResult r msg)
  | none => results

/-- The rows of a species group marked as state records. -/
def stateRecordRows (df : List RawRow) (rowIndices : List Nat) : List Nat :=
  rowIndices.filter (fun idx => isAffirmative (dfRow df idx).stateRecord)

/-- The body of `_validate_state_records` for one species group. -/
def processStateGroup (df : List RawRow) (results : List RowResult)
    (rowIndices : List Nat) : List RowResult :=
  let srs := stateRecordRows df rowIndices
  if 1 < srs.length then
    let e := findEarliestRecord df srs
    srs.foldl (fun res idx =>
      if idx ≠ e then flagRowAt res idx (dupStateMsg e) else res) results
  else results

/-- `_validate_state_records(species_groups, df, validation_results)`. -/
def validateStateRecordsWith (df : List RawRow)
    (groups : List (Str × List Nat)) (results : List RowResult) :
    List RowResult :=
  groups.foldl (fun res g => processStateGroup df res g.2) results

/-- The per-species county sub-grouping inside `_validate_county_records`. -/
def countyGroupsOf (df : List RawRow) (rowIndices : List Nat) :
    List (Str × List Nat) :=
  rowIndices.foldl (fun cg idx =>
    let county := pyStrip (pyStrOf (dfRow df idx).county)
    if isAffirmative (dfRow df idx).countyRecord then assocAppend cg county idx
    else cg) []

/-- The body of `_validate_county_records` for one species group. -/
def processCountyGroup (df : List RawRow) (results : List RowResult)
    (rowIndices : List Nat) : List RowResult :=
  (countyGroupsOf df rowIndices).foldl (fun res cg =>
    if 1 < cg.2.length then
      let e := findEarliestRecord df cg.2
      cg.2.foldl (fun res idx =>
        if idx ≠ e then flagRowAt res idx (dupCountyMsg cg.1 e) else res) res
    else res) results

/-- `_validate_county_records(species_groups, df, validation_results)`. -/
def validateCountyRecordsWith (df : List RawRow)
    (groups : List (Str × List Nat)) (results : List RowResult) :
    List RowResult :=
  groups.foldl (fun res g => processCountyGroup df res g.2) results

/-- `validate_record_uniqueness(df, validation_results)`: group once, then the
state pass followed by the county pass. -/
def validateRecordUniqueness (df : List RawRow) (results : List RowResult) :
    List RowResult :=
  let groups := groupBySpecies df
  validateCountyRecordsWith df groups (validateStateRecordsWith df groups results)

/-- The state-record half of the uniqueness pass on the groups of `df`. -/
def validateStateRecords (df : List RawRow) (results : List RowResult) :
    List RowResult :=
  validateStateRecordsWith df (groupBySpecies df) results

/-! ### `validate_hallucinations` -/

/-- `\w` (no lowercase letters remain after `.upper()` on this ASCII data). -/
def isWordChar (c : Char) : Bool := c.isAlpha ∨ c.isDigit ∨ c = '_'

/-- A character of the class `[A-Z0-9]`. -/
def isTokenChar (c : Char) : Bool := ('A' ≤ c ∧ c ≤ 'Z') ∨ c.isDigit

/-- `extract_tokens`: `re.findall(r'\b[A-Z0-9]+\b', text.upper())` as a set.
A match of that regex is exactly a maximal run of word characters that
consists only of `[A-Z0-9]` (the `\b` anchors rule out runs touching `_`).
The set is modelled as a deduplicated list. -/
def extractTokens (text : Str) : List Str :=
  let up := pyUpper text
  (((up.splitOnP (fun c => ¬ isWordChar c)).filter (fun r => r ≠ []))
    |>.filter (fun r => r.all isTokenChar)).dedup

/-- Lexicographic order on strings (Python `sorted`). -/
def strLe (a b : Str) : Prop := a ≤ b

instance : DecidableRel strLe := fun a b => by unfold strLe; infer_instance

/-- `', '.join(...)`. -/
def joinCommaSpace : List Str → Str
  | [] => []
  | [t] => t
  | t :: u :: rest => t ++ ", ".data ++ joinCommaSpace (u :: rest)

/-- The allow-list used for `Specific Location` hallucination filtering. -/
def locationAllowList : List Str :=
  (["LK", "RV", "CR", "MT", "RD", "HWY", "TR", "SH", "SR",
    "NR", "N", "S", "E", "W", "CAMPGD", "MI", "KM",
    "ESE", "WSW", "NNE", "SSW", "NW", "NE", "SE", "SW"]).map String.data

/-- The allow-list used for `Comments` hallucination filtering. -/
def commentsAllowList : List Str :=
  (["LK", "RV", "CR", "MT", "RD", "HWY", "TR", "SH", "SR",
    "NR", "N", "S", "E", "W", "CAMPGD", "MI", "KM",
    "LT", "MV", "UV", "NECT", "OVIPOS", "BASK"]).map String.data

/-- The hallucination error message: field name, fixed text and the sorted,
comma-joined offending tokens. -/
def hallucMsg (fieldName : Str) (toks : List Str) : Str :=
  fieldName ++ ": LLM hallucination detected - added content not in original: ".data
    ++ joinCommaSpace (List.insertionSort strLe toks)

/-- The set of offending tokens for one field: tokens of the shortened text
minus tokens of the original minus the allow-list. -/
def hallucinatedTokens (original shortened : Str) (allow : List Str) :
    List Str :=
  ((extractTokens shortened).filter (fun t => t ∉ extractTokens original)).filter
    (fun t => t ∉ allow)

/-- One field's hallucination check inside `validate_hallucinations`: only
rows with a correction for the field whose field result carries the
`ai_shortened` metadata are examined; offenders invalidate the row, append the
error, set the row-level `hallucination_detected` flag and delete the
correction. -/
def hallucinationField (origCell : CellValue) (fld : Str) (allow : List Str)
    (r : RowResult) : RowResult :=
  match lookupAssoc r.corrections fld with
  | none => r
  | some shortened =>
    match lookupAssoc r.fieldResults fld with
    | none => r
    | some fres =>
      if fres.meta.aiShortened then
        let original := pyStrip (pyStrOf origCell)
        let hall := hallucinatedTokens original (pyStrOf shortened) allow
        if hall ≠ [] then
          { r with isValid := false,
                   errors := r.errors ++ [hallucMsg fld hall],
                   hallucinationDetected := true,
                   corrections := eraseAssoc r.corrections fld }
        else r
      else r

/-- The per-result body of `validate_hallucinations`: the `Specific Location`
check followed by the `Comments` check. -/
def hallucinationRow (row : RawRow) (r : RowResult) : RowResult :=
  hallucinationField row.comments "Comments".data commentsAllowList
    (hallucinationField row.specificLocation "Specific Location".data
      locationAllowList r)

/-- `validate_hallucinations(df, validation_results)`: each result is checked
against `df.iloc[i]` at its own list position. -/
def validateHallucinations (df : List RawRow) (results : List RowResult) :
    List RowResult :=
  results.enum.map (fun p => hallucinationRow (dfRow df p.1) p.2)

/-! ### Oracle interfaces (`integrations/inat.py`, the LLM) -/

/-- Response shape of `check_species`. -/
structure SpeciesResp where
  valid : Bool := false
  taxonId : Option Nat := none
  rank : Option Str := none
  commonName : Option Str := none
  hierarchyMismatch : Bool := false
  suggestedFamily : Str := []
deriving DecidableEq, Repr

/-- Response shape of `check_location`. -/
structure LocationResp where
  valid : Bool := false
  placeId : Option Nat := none
  displayName : Option Str := none
deriving DecidableEq, Repr

/-- Response shape of `check_record_status`. -/
structure RecordResp where
  error : Option Str := none
  isNewRecord : Bool := false
  existingCount : Nat := 0
  queryUrl : Str := []
deriving DecidableEq, Repr

/-- The iNaturalist oracle.  Arguments are the Python values the call sites
pass (`none` is Python `None`); a `.error` value models a raised exception
(`asyncio.run(...)` failing), whose text the validators embed in warnings. -/
structure InatOracle where
  checkSpecies : Option CellValue → Option CellValue → Option CellValue →
    Except Str SpeciesResp
  checkLocation : Option CellValue → Option CellValue → Option CellValue →
    Except Str LocationResp
  checkRecordStatus : Nat → Option CellValue → Option Nat → Option CellValue →
    Except Str RecordResp

/-- The environment a validation run closes over: the current date
(`datetime.now()`), the optional iNaturalist oracle, and the two
text-shortening LLM calls (`execute_ai_task` applied to the location/comment
style guides; the returned text is modelled before the final `.strip()`). -/
structure Env where
  today : DateV
  inat : Option InatOracle := none
  llmShortenLocation : Str → Except Str Str := fun _ => .error []
  llmShortenComment : Str → Except Str Str := fun _ => .error []

/-- The mutable `row_dict` threaded through one row's validators: the raw
cells plus the `_inat_taxon_id` / `_inat_place_id` keys written by the
Species and County validators. -/
structure RowCtx where
  row : RawRow
  inatTaxonId : Option Nat := none
  inatPlaceId : Option Nat := none
deriving DecidableEq, Repr

/-- Python truthiness of `row_data.get('_inat_taxon_id')`-style lookups:
missing, `None` and `0` are falsy. -/
def optNatTruthy (o : Option Nat) : Bool :=
  match o with
  | some n => n ≠ 0
  | none => false

/-- `if not inat_result.get('error')`: `None` and `''` are falsy. -/
def optStrFalsy (o : Option Str) : Bool :=
  match o with
  | none => true
  | some s => s = []

/-- Python `int(value)` as used by the Zone and Year validators: integers pass
through, digit strings (with optional sign, surrounding whitespace) parse,
floats (`NaN`) and datetimes raise (`none`). -/
def pyInt (v : CellValue) : Option Int :=
  match v with
  | .int n => some n
  | .str s =>
    match pyStrip s with
    | '-' :: ds => if ds ≠ [] ∧ allDigits ds then some (-(natOfDigits ds : Int)) else none
    | '+' :: ds => if ds ≠ [] ∧ allDigits ds then some ((natOfDigits ds : Int)) else none
    | ds => if ds ≠ [] ∧ allDigits ds then some ((natOfDigits ds : Int)) else none
  | .blank => none
  | .date _ => none

/-! ### `agents/geographic.py` -/

/-- `config.US_STATES`. -/
def usStates : List Str :=
  (["AL", "AK", "AZ", "AR", "CA", "CO", "CT", "DE", "FL", "GA",
    "HI", "ID", "IL", "IN", "IA", "KS", "KY", "LA", "ME", "MD",
    "MA", "MI", "MN", "MS", "MO", "MT", "NE", "NV", "NH", "NJ",
    "NM", "NY", "NC", "ND", "OH", "OK", "OR", "PA", "RI", "SC",
    "SD", "TN", "TX", "UT", "VT", "VA", "WA", "WV", "WI", "WY", "DC"]).map
    String.data

/-- `config.CAN_PROVINCES`. -/
def canProvinces : List Str :=
  (["AB", "BC", "MB", "NB", "NL", "NS", "NT", "NU", "ON", "PE", "QC", "SK",
    "YT"]).map String.data

/-- `config.MEX_STATES`. -/
def mexStates : List Str :=
  (["AGU", "BCN", "BCS", "CAM", "CHP", "CHH", "COA", "COL", "CMX", "DUR",
    "GUA", "GRO", "HID", "JAL", "MEX", "MIC", "MOR", "NAY", "NLE", "OAX",
    "PUE", "QUE", "ROO", "SLP", "SIN", "SON", "TAB", "TAM", "TLA", "VER",
    "YUC", "ZAC"]).map String.data

/-- `ZoneValidator.validate`. -/
def ZoneValidator.validate (value : CellValue) (rowData : Option RowCtx) :
    ValidationResult :=
  let result : ValidationResult := { fieldName := "Zone".data, value := value }
  if isBlankCell value then
    match rowData with
    | some ctx =>
      if isBlankCell ctx.row.country ∧ isBlankCell ctx.row.state then
        { result with warnings := ["Zone is missing (empty row)".data] }
      else { result with isValid := false, errors := ["Zone is required".data] }
    | none => { result with isValid := false, errors := ["Zone is required".data] }
  else
    match pyInt value with
    | some z =>
      if ¬ (1 ≤ z ∧ z ≤ 12) then
        { result with isValid := false,
                      errors := ["Zone must be between 1-12, got ".data ++ intToStr z] }
      else { result with correction := some (.int z),
                         correctionType := some .normalization }
    | none =>
      { result with isValid := false,
                    errors := ["Zone must be numeric, got ".data ++ pyStrOf value] }

/-- `CountryValidator.validate`. -/
def CountryValidator.validate (value : CellValue) (rowData : Option RowCtx) :
    ValidationResult :=
  let result : ValidationResult := { fieldName := "Country".data, value := value }
  if isBlankCell value then
    match rowData with
    | some ctx =>
      if isBlankCell ctx.row.zone ∧ isBlankCell ctx.row.state then
        { result with warnings := ["Country is missing (empty row)".data] }
      else { result with isValid := false, errors := ["Country is required".data] }
    | none => { result with isValid := false, errors := ["Country is required".data] }
  else
    let valueUpper := pyStrip (pyUpper (pyStrOf value))
    let r1 :=
      if valueUpper ∉ ["USA".data, "CAN".data, "MEX".data] then
        { result with isValid := false,
                      errors := result.errors ++
            ["Country must be USA, CAN, or MEX, got ".data ++ pyStrOf value] }
      else result
    let r2 :=
      if valueUpper.length ≠ 3 then
        { r1 with isValid := false,
                  errors := r1.errors ++ ["Country must be exactly 3 characters".data] }
      else r1
    { r2 with correction := some (.str valueUpper),
              correctionType := some .normalization }

/-- The country-dependent subdivision checks, length check and normalization
of `StateValidator.validate` once `country.upper()` succeeded. -/
def stateChecks (result : ValidationResult) (state country : Str) :
    ValidationResult :=
  let r1 :=
    if country = "USA".data then
      if state ∉ usStates then
        { result with isValid := false,
                      errors := result.errors ++ ["Invalid US state: ".data ++ state] }
      else result
    else if country = "CAN".data then
      if state ∉ canProvinces then
        { result with isValid := false,
                      errors := result.errors ++ ["Invalid Canadian province: ".data ++ state] }
      else result
    else if country = "MEX".data then
      if state ∉ mexStates then
        { result with warnings := result.warnings ++
            ["Please verify Mexican state code: ".data ++ state] }
      else result
    else result
  let r2 :=
    if 3 < state.length then
      { r1 with isValid := false,
                errors := r1.errors ++ ["State/Province must be 3 characters or less".data] }
    else r1
  { r2 with correction := some (.str state), correctionType := some .normalization }

/-- `StateValidator.validate`.  `row_data.get('Country', '').upper()` raises
`AttributeError` when the Country cell holds a non-string (for example `NaN`);
that exception propagates out of the validator, so the result type is
`Except`. -/
def StateValidator.validate (value : CellValue) (rowData : Option RowCtx) :
    Except Str ValidationResult :=
  let result : ValidationResult := { fieldName := "State".data, value := value }
  if isBlankCell value then
    .ok (match rowData with
    | some ctx =>
      if isBlankCell ctx.row.zone ∧ isBlankCell ctx.row.country then
        { result with warnings := ["State is missing (empty row)".data] }
      else { result with isValid := false,
                         errors := ["State/Province is required".data] }
    | none => { result with isValid := false,
                            errors := ["State/Province is required".data] })
  else
    let state := pyStrip (pyUpper (pyStrOf value))
    match rowData with
    | some ctx =>
      match ctx.row.country with
      | .str cs => .ok (stateChecks result state (pyUpper cs))
      | .blank => .error "'float' object has no attribute 'upper'".data
      | .int _ => .error "'int' object has no attribute 'upper'".data
      | .date _ => .error "'datetime.datetime' object has no attribute 'upper'".data
    | none => .ok (stateChecks result state [])

/-- Non-overlapping left-to-right removal of a substring
(`str.replace(needle, '')`). -/
def removeOccurrences (needle : Str) : Str → Str
  | [] => []
  | c :: rest =>
    if needle ≠ [] ∧ needle.isPrefixOf (c :: rest) then
      removeOccurrences needle (rest.drop (needle.length - 1))
    else c :: removeOccurrences needle rest
  termination_by l => l.length
  decreasing_by
    · simp only [List.length_cons]
      have := List.length_drop (needle.length - 1) rest
      omega
    · simp [List.length_cons]

/-- Python `needle in hay` (substring test). -/
def containsSub (hay needle : Str) : Bool := decide (needle <:+: hay)

/-- `CountyValidator.validate` (returns the possibly updated `row_data`,
which receives `_inat_place_id` when the location resolves). -/
def CountyValidator.validate (env : Env) (value : CellValue)
    (rowData : Option RowCtx) : ValidationResult × Option RowCtx :=
  let result : ValidationResult := { fieldName := "County".data, value := value }
  if isBlankCell value then
    ({ result with isValid := false, errors := ["County is required".data] }, rowData)
  else
    let county₀ := pyStrip (pyStrOf value)
    let r1 :=
      if 20 < county₀.length then
        { result with isValid := false,
                      errors := ["County exceeds 20 characters: ".data ++ natToStr county₀.length] }
      else result
    let hasSuffix := containsSub county₀ "County".data ∨
      containsSub county₀ "Province".data ∨ containsSub county₀ "Territory".data
    let cleaned := pyStrip (removeOccurrences "Territory".data
      (removeOccurrences "Province".data (removeOccurrences "County".data county₀)))
    let r2 :=
      if hasSuffix then
        { r1 with
          warnings := r1.warnings ++ ["Remove 'County/Province/Territory' from name".data],
          correction := some (.str cleaned), correctionType := some .correction }
      else r1
    let county := if hasSuffix then cleaned else county₀
    match env.inat, rowData with
    | some oracle, some ctx =>
      if cellTruthy ctx.row.state ∧ cellTruthy ctx.row.country then
        match oracle.checkLocation (some (.str county)) (some ctx.row.state)
          (some ctx.row.country) with
        | .ok resp =>
          if resp.valid then
            ({ r2 with meta := { r2.meta with
                                 inatPlaceId := resp.placeId,
                                 inatDisplayName := resp.displayName } },
             some { ctx with inatPlaceId := resp.placeId })
          else
            ({ r2 with
               warnings := r2.warnings ++
                 ["Location '".data ++ county ++ ", ".data ++ pyStrOf ctx.row.state
                   ++ ", ".data ++ pyStrOf ctx.row.country
                   ++ "' not found in iNaturalist".data],
               meta := { r2.meta with needsHumanReview := true } }, rowData)
        | .error e =>
          ({ r2 with warnings := r2.warnings ++
              ["Could not verify location with iNaturalist: ".data ++ e] }, rowData)
      else (r2, rowData)
    | _, _ => (r2, rowData)

/-! ### `agents/taxonomic.py` -/

/-- `FamilyValidator.validate`. -/
def FamilyValidator.validate (env : Env) (value : CellValue)
    (_rowData : Option RowCtx) : ValidationResult :=
  let result : ValidationResult := { fieldName := "Family".data, value := value }
  if isBlankCell value then
    { result with isValid := false, errors := ["Family is required".data] }
  else
    let family := pyStrip (pyStrOf value)
    let familyNormalized := pyCapitalize family
    let r1 :=
      if family ≠ familyNormalized then
        { result with correction := some (.str familyNormalized),
                      correctionType := some .normalization }
      else result
    let r2 :=
      if 20 < family.length then
        { r1 with isValid := false,
                  errors := r1.errors ++
            ["Family exceeds 20 characters: ".data ++ natToStr family.length] }
      else r1
    match env.inat with
    | some oracle =>
      match oracle.checkSpecies (some (.str familyNormalized)) (some (.str [])) none with
      | .ok resp =>
        if resp.valid then
          { r2 with meta := { r2.meta with
                              inatTaxonId := resp.taxonId,
                              inatRank := resp.rank } }
        else
          { r2 with isValid := false,
                    errors := r2.errors ++
              ["Family '".data ++ familyNormalized ++ "' not found in iNaturalist".data],
                    meta := { r2.meta with needsHumanReview := true } }
      | .error e =>
        { r2 with warnings := r2.warnings ++
            ["Could not verify family with iNaturalist: ".data ++ e] }
    | none => r2

/-- `GenusValidator.validate`. -/
def GenusValidator.validate (value : CellValue) (_rowData : Option RowCtx) :
    ValidationResult :=
  let result : ValidationResult := { fieldName := "Genus".data, value := value }
  if isBlankCell value then
    { result with isValid := false, errors := ["Genus is required".data] }
  else
    let genus := pyStrip (pyStrOf value)
    let genusNormalized := pyCapitalize genus
    let r1 :=
      if genus ≠ genusNormalized then
        { result with correction := some (.str genusNormalized),
                      correctionType := some .normalization }
      else result
    let r2 :=
      if 20 < genus.length then
        { r1 with isValid := false,
                  errors := r1.errors ++
            ["Genus exceeds 20 characters: ".data ++ natToStr genus.length] }
      else r1
    { r2 with meta := { r2.meta with needsInatCheck := true } }

/-- `SpeciesValidator.validate` (writes `_inat_taxon_id` into `row_data` when
the lookup resolves). -/
def SpeciesValidator.validate (env : Env) (value : CellValue)
    (rowData : Option RowCtx) : ValidationResult × Option RowCtx :=
  let result : ValidationResult := { fieldName := "Species".data, value := value }
  if isBlankCell value then
    ({ result with isValid := false, errors := ["Species is required".data] }, rowData)
  else
    let species := pyLower (pyStrip (pyStrOf value))
    let r1 :=
      if 18 < species.length then
        { result with isValid := false,
                      errors := result.errors ++
            ["Species exceeds 18 characters: ".data ++ natToStr species.length] }
      else result
    let r2 :=
      if species ≠ pyStrip (pyStrOf value) then
        { r1 with correction := some (.str species),
                  correctionType := some .normalization }
      else r1
    match env.inat, rowData with
    | some oracle, some ctx =>
      let genus := ctx.row.genus
      let family := ctx.row.family
      if cellTruthy genus then
        match oracle.checkSpecies (some genus) (some (.str species)) (some family) with
        | .ok resp =>
          if resp.valid then
            let r3 := { r2 with meta := { r2.meta with
                                          inatTaxonId := resp.taxonId,
                                          inatCommonName := resp.commonName } }
            let ctx2 := some { ctx with inatTaxonId := resp.taxonId }
            if resp.hierarchyMismatch then
              ({ r3 with
                 warnings := r3.warnings ++
                   ["Family mismatch: '".data ++ pyStrOf family ++ "' should be '".data
                     ++ resp.suggestedFamily ++ "' based on genus/species".data],
                 meta := { r3.meta with suggestedFamily := some resp.suggestedFamily } },
               ctx2)
            else (r3, ctx2)
          else
            ({ r2 with isValid := false,
                       errors := r2.errors ++
                 ["Species '".data ++ pyStrOf genus ++ (' ' :: species)
                   ++ "' not found in iNaturalist".data],
                       meta := { r2.meta with needsHumanReview := true } }, rowData)
        | .error e =>
          ({ r2 with warnings := r2.warnings ++
              ["Could not verify with iNaturalist: ".data ++ e] }, rowData)
      else (r2, rowData)
    | _, _ => (r2, rowData)

/-- `SubspeciesValidator.validate`. -/
def SubspeciesValidator.validate (env : Env) (value : CellValue)
    (rowData : Option RowCtx) : ValidationResult :=
  let result : ValidationResult := { fieldName := "Sub-species".data, value := value }
  if isBlankCell value then result
  else
    let subspecies := pyLower (pyStrip (pyStrOf value))
    let r1 :=
      if 16 < subspecies.length then
        { result with isValid := false,
                      errors := result.errors ++
            ["Sub-species exceeds 16 characters: ".data ++ natToStr subspecies.length] }
      else result
    let r2 :=
      if subspecies ≠ pyStrip (pyStrOf value) then
        { r1 with correction := some (.str subspecies),
                  correctionType := some .normalization }
      else r1
    match env.inat, rowData with
    | some oracle, some ctx =>
      let genus := ctx.row.genus
      let species := ctx.row.species
      let family := ctx.row.family
      if cellTruthy genus ∧ cellTruthy species ∧ subspecies ≠ [] then
        let trinomial := pyStrOf genus ++ (' ' :: pyStrOf species) ++ (' ' :: subspecies)
        match oracle.checkSpecies (some genus)
          (some (.str (pyStrOf species ++ (' ' :: subspecies)))) (some family) with
        | .ok resp =>
          if resp.valid then
            let r3 := { r2 with meta := { r2.meta with
                                          inatTaxonId := resp.taxonId,
                                          inatCommonName := resp.commonName,
                                          validatedTrinomial := some trinomial } }
            if resp.hierarchyMismatch then
              { r3 with
                warnings := r3.warnings ++
                  ["Family mismatch: '".data ++ pyStrOf family ++ "' should be '".data
                    ++ resp.suggestedFamily ++ "' based on trinomial name".data],
                meta := { r3.meta with suggestedFamily := some resp.suggestedFamily } }
            else r3
          else
            { r2 with isValid := false,
                      errors := r2.errors ++
                ["Subspecies '".data ++ trinomial ++ "' not found in iNaturalist".data],
                      meta := { r2.meta with needsHumanReview := true } }
        | .error e =>
          { r2 with warnings := r2.warnings ++
              ["Could not verify subspecies with iNaturalist: ".data ++ e] }
      else r2
    | _, _ => r2

/-! ### `agents/records.py` -/

/-- Blank record fields default to `'N'` as a normalization. -/
def defaultRecordN (r : ValidationResult) (valueUpper : Str) : ValidationResult :=
  if valueUpper = [] then
    { r with correction := some (.str "N".data),
             correctionType := some .normalization }
  else r

/-- The oracle comparison stage of `StateRecordValidator.validate`, entered
when both `taxon_id` and `state` are truthy. -/
def stateRecordOracleStage (oracle : InatOracle) (taxonId : Nat) (ctx : RowCtx)
    (valueUpper : Str) (r0 : ValidationResult) : ValidationResult :=
  match oracle.checkRecordStatus taxonId (some ctx.row.state) none none with
  | .ok resp =>
    if optStrFalsy resp.error then
      let isNew := resp.isNewRecord
      let cnt := resp.existingCount
      let r1 :=
        if valueUpper = "Y".data ∧ ¬ isNew then
          { r0 with isValid := false,
                    errors := r0.errors ++
                      ["Marked as state record but ".data ++ natToStr cnt ++
                       " observations already exist in iNaturalist".data] }
        else if valueUpper = "N".data ∧ isNew then
          { r0 with isValid := false,
                    errors := r0.errors ++
                      ["Marked as NOT a state record but no prior observations found in iNaturalist".data],
                    correction := some (.str "Y".data),
                    correctionType := some .correction }
        else if valueUpper = [] then
          let r2 :=
            { r0 with correction := some (.str (if isNew then "Y".data else "N".data)),
                      correctionType := some (if isNew then .correction else .normalization) }
          if isNew then
            { r2 with warnings := r2.warnings ++
                ["Auto-filled as state record (no prior observations in iNaturalist)".data] }
          else r2
        else r0
      { r1 with meta := { r1.meta with
                          inatExistingCount := some cnt,
                          inatQueryUrl := some resp.queryUrl } }
    else
      if valueUpper = [] then
        { r0 with correction := some (.str "N".data),
                  correctionType := some .normalization,
                  warnings := r0.warnings ++
                    ["Could not verify state record: ".data ++ resp.error.getD []] }
      else r0
  | .error e =>
    let r1 := { r0 with warnings := r0.warnings ++
        ["Could not verify state record with iNaturalist: ".data ++ e] }
    defaultRecordN r1 valueUpper

/-- `StateRecordValidator.validate`. -/
def StateRecordValidator.validate (env : Env) (value : CellValue)
    (rowData : Option RowCtx) : ValidationResult :=
  let result : ValidationResult := { fieldName := "State Record".data, value := value }
  let valueUpper := if isBlankCell value then [] else pyStrip (pyUpper (pyStrOf value))
  if ¬ isBlankCell value ∧ valueUpper ∉ ["Y".data, "N".data] then
    { result with isValid := false,
                  errors := ["State Record must be Y, N, or blank".data] }
  else
    let r0 :=
      if ¬ isBlankCell value ∧ pyStrip (pyStrOf value) ≠ valueUpper then
        { result with correction := some (.str valueUpper),
                      correctionType := some .normalization }
      else result
    match rowData with
    | some ctx =>
      if ¬ optNatTruthy ctx.inatTaxonId then
        if valueUpper = [] then
          { r0 with warnings := r0.warnings ++
              ["Cannot verify state record - species not found in iNaturalist".data] }
        else r0
      else
        match env.inat with
        | some oracle =>
          match ctx.inatTaxonId with
          | some taxonId =>
            if taxonId ≠ 0 ∧ cellTruthy ctx.row.state then
              stateRecordOracleStage oracle taxonId ctx valueUpper r0
            else defaultRecordN r0 valueUpper
          | none => defaultRecordN r0 valueUpper
        | none => defaultRecordN r0 valueUpper
    | none => defaultRecordN r0 valueUpper

/-- The oracle comparison stage of `CountyRecordValidator.validate`, entered
when both `taxon_id` and `place_id` are truthy. -/
def countyRecordOracleStage (oracle : InatOracle) (taxonId placeId : Nat)
    (ctx : RowCtx) (valueUpper : Str) (r0 : ValidationResult) :
    ValidationResult :=
  match oracle.checkRecordStatus taxonId (some ctx.row.state) (some placeId)
    (some ctx.row.county) with
  | .ok resp =>
    if optStrFalsy resp.error then
      let isNew := resp.isNewRecord
      let cnt := resp.existingCount
      let r1 :=
        if valueUpper = "Y".data ∧ ¬ isNew then
          { r0 with isValid := false,
                    errors := r0.errors ++
                      ["Marked as county record but ".data ++ natToStr cnt ++
                       " observations already exist in iNaturalist".data] }
        else if valueUpper = "N".data ∧ isNew then
          { r0 with isValid := false,
                    errors := r0.errors ++
                      ["Marked as NOT a county record but no prior observations found in iNaturalist".data],
                    correction := some (.str "Y".data),
                    correctionType := some .correction }
        else if valueUpper = [] then
          let r2 :=
            { r0 with correction := some (.str (if isNew then "Y".data else "N".data)),
                      correctionType := some (if isNew then .correction else .normalization) }
          if isNew then
            { r2 with warnings := r2.warnings ++
                ["Auto-filled as county record (no prior observations in iNaturalist)".data] }
          else r2
        else r0
      { r1 with meta := { r1.meta with
                          inatExistingCount := some cnt,
                          inatQueryUrl := some resp.queryUrl } }
    else
      if valueUpper = [] then
        { r0 with correction := some (.str "N".data),
                  correctionType := some .normalization,
                  warnings := r0.warnings ++
                    ["Could not verify county record: ".data ++ resp.error.getD []] }
      else r0
  | .error e =>
    let r1 := { r0 with warnings := r0.warnings ++
        ["Could not verify county record with iNaturalist: ".data ++ e] }
    defaultRecordN r1 valueUpper

/-- `CountyRecordValidator.validate`. -/
def CountyRecordValidator.validate (env : Env) (value : CellValue)
    (rowData : Option RowCtx) : ValidationResult :=
  let result : ValidationResult := { fieldName := "County Record".data, value := value }
  let valueUpper := if isBlankCell value then [] else pyStrip (pyUpper (pyStrOf value))
  if ¬ isBlankCell value ∧ valueUpper ∉ ["Y".data, "N".data] then
    { result with isValid := false,
                  errors := ["County Record must be Y, N, or blank".data] }
  else
    let r0 :=
      if ¬ isBlankCell value ∧ pyStrip (pyStrOf value) ≠ valueUpper then
        { result with correction := some (.str valueUpper),
                      correctionType := some .normalization }
      else result
    match rowData with
    | some ctx =>
      if ¬ optNatTruthy ctx.inatTaxonId then
        if valueUpper = [] then
          { r0 with warnings := r0.warnings ++
              ["Cannot verify county record - species not found in iNaturalist".data] }
        else r0
      else
        match env.inat with
        | some oracle =>
          match ctx.inatTaxonId, ctx.inatPlaceId with
          | some taxonId, some placeId =>
            if taxonId ≠ 0 ∧ placeId ≠ 0 then
              countyRecordOracleStage oracle taxonId placeId ctx valueUpper r0
            else defaultRecordN r0 valueUpper
          | _, _ => defaultRecordN r0 valueUpper
        | none => defaultRecordN r0 valueUpper
    | none => defaultRecordN r0 valueUpper

/-! ### `agents/temporal.py` -/

/-- `date_obj.strftime("%d-%b-%y").upper()`. -/
def strftimeDdMmmYy (d : DateV) : Str :=
  pad2 d.day ++ ('-' :: pyUpper (monthAbbrevs.getD (d.month - 1) []))
    ++ ('-' :: pad2 (d.year % 100))

/-- `config.DATE_FORMAT = ^\d{1,2}-[A-Z]{3}-\d{2}$` matched against the
uppercased string (`re.match` with the anchored pattern). -/
def regexCanonical (s : Str) : Bool :=
  match splitChar '-' (pyUpper s) with
  | [d, m, y] =>
    d ≠ [] ∧ d.length ≤ 2 ∧ allDigits d ∧
    m.length = 3 ∧ m.all (fun c => 'A' ≤ c ∧ c ≤ 'Z') ∧
    y.length = 2 ∧ allDigits y
  | _ => false

/-- The canonical-format branch of the date validators:
`date_str.upper().split('-')`, `int(...)` on the day and year pieces, the
source's own two-digit year pivot (`2000 + y if y < 50 else 1900 + y`) and
`strptime(f"{day}-{month_str}-{year_full}", "%d-%b-%Y")` (whose `%d` field
requires 1..31 and which validates the day against the month). -/
def canonicalParse (dateStr : Str) : Option DateV :=
  match splitChar '-' (pyUpper dateStr) with
  | [ds, ms, ys] =>
    match parseIntDigits ds, parseIntDigits ys with
    | some d, some yy =>
      let y := if yy < 50 then 2000 + yy else 1900 + yy
      match monthOfAbbrev ms with
      | some m => if 1 ≤ d ∧ d ≤ daysInMonth y m then some ⟨y, m, d⟩ else none
      | none => none
    | _, _ => none
  | _ => none

/-- `strptime`'s `%m` field: one or two digits, value 1..12. -/
def parseMonthField (s : Str) : Option Nat :=
  if s ≠ [] ∧ s.length ≤ 2 ∧ allDigits s ∧ 1 ≤ natOfDigits s ∧ natOfDigits s ≤ 12
  then some (natOfDigits s) else none

/-- `strptime`'s `%Y` field: exactly four digits. -/
def parseYear4Field (s : Str) : Option Nat :=
  if s.length = 4 ∧ allDigits s then some (natOfDigits s) else none

/-- `strptime`'s `%y` field: exactly two digits, 00-68 mapped to 20xx. -/
def parseYear2Field (s : Str) : Option Nat :=
  if s.length = 2 ∧ allDigits s then
    some (if natOfDigits s ≤ 68 then 2000 + natOfDigits s else 1900 + natOfDigits s)
  else none

/-- Build a date from parsed fields, validating the day against the month. -/
def mkDate (y : Option Nat) (m : Option Nat) (d : Option Nat) : Option DateV :=
  match y, m, d with
  | some y, some m, some d =>
    if 1 ≤ d ∧ d ≤ daysInMonth y m then some ⟨y, m, d⟩ else none
  | _, _, _ => none

/-- `strptime(date_str, '%Y-%m-%d')`. -/
def strptimeYmd (s : Str) : Option DateV :=
  match splitChar '-' s with
  | [ys, ms, ds] => mkDate (parseYear4Field ys) (parseMonthField ms) (parseDayField ds)
  | _ => none

/-- `strptime(date_str, '%m/%d/%Y')`. -/
def strptimeMdY4 (s : Str) : Option DateV :=
  match splitChar '/' s with
  | [ms, ds, ys] => mkDate (parseYear4Field ys) (parseMonthField ms) (parseDayField ds)
  | _ => none

/-- `strptime(date_str, '%m/%d/%y')`. -/
def strptimeMdY2 (s : Str) : Option DateV :=
  match splitChar '/' s with
  | [ms, ds, ys] => mkDate (parseYear2Field ys) (parseMonthField ms) (parseDayField ds)
  | _ => none

/-- `strptime(date_str, '%d/%m/%Y')`. -/
def strptimeDmY4 (s : Str) : Option DateV :=
  match splitChar '/' s with
  | [ds, ms, ys] => mkDate (parseYear4Field ys) (parseMonthField ms) (parseDayField ds)
  | _ => none

/-- `strptime(date_str, '%d/%m/%y')`. -/
def strptimeDmY2 (s : Str) : Option DateV :=
  match splitChar '/' s with
  | [ds, ms, ys] => mkDate (parseYear2Field ys) (parseMonthField ms) (parseDayField ds)
  | _ => none

/-- The fallback loop over
`['%Y-%m-%d', '%m/%d/%Y', '%m/%d/%y', '%d/%m/%Y', '%d/%m/%y']`, first
success wins. -/
def parseOtherFormats (s : Str) : Option DateV :=
  match strptimeYmd s with
  | some d => some d
  | none =>
    match strptimeMdY4 s with
    | some d => some d
    | none =>
      match strptimeMdY2 s with
      | some d => some d
      | none =>
        match strptimeDmY4 s with
        | some d => some d
        | none => strptimeDmY2 s

/-- `FirstDateValidator.validate`.  The local `Except` models the early
returns of the Python function; a `.date` value is an Excel datetime cell. -/
def FirstDateValidator.validate (env : Env) (value : CellValue)
    (_rowData : Option RowCtx) : ValidationResult :=
  let result : ValidationResult := { fieldName := "First Date".data, value := value }
  if isBlankCell value then
    { result with isValid := false, errors := ["First Date is required".data] }
  else
    let parsed : Except ValidationResult (Option DateV) :=
      match value with
      | .date d => .ok (some d)
      | .str s0 =>
        let dateStr := pyStrip s0
        if regexCanonical dateStr then
          match canonicalParse dateStr with
          | some d => .ok (some d)
          | none => .error { result with
                             isValid := false,
                             errors := ["Invalid date: ".data ++ dateStr] }
        else
          match parseOtherFormats dateStr with
          | some d => .ok (some d)
          | none => .error { result with
                             isValid := false,
                             errors := ["Could not parse date: ".data ++ dateStr] }
      | _ => .ok none
    match parsed with
    | .error r => r
    | .ok none => result
    | .ok (some d) =>
      let formatted := strftimeDdMmmYy d
      let r1 :=
        if pyStrOf value ≠ formatted then
          { result with correction := some (.str formatted),
                        correctionType := some .normalization }
        else result
      let r2 :=
        if 3 < (env.today.year : Int) - (d.year : Int) then
          { r1 with warnings := r1.warnings ++
              ["Date is more than 3 years old: ".data ++ natToStr d.year] }
        else r1
      let r3 :=
        if env.today.encode < d.encode then
          { r2 with isValid := false,
                    errors := r2.errors ++
                      ["Date cannot be in the future: ".data ++ formatted] }
        else r2
      { r3 with meta := { r3.meta with datetimeV := some d } }

/-- `LastDateValidator.validate`. -/
def LastDateValidator.validate (env : Env) (value : CellValue)
    (rowData : Option RowCtx) : ValidationResult :=
  let result : ValidationResult := { fieldName := "Last Date".data, value := value }
  if isBlankCell value then result
  else
    let parsed : Except ValidationResult (Option DateV) :=
      match value with
      | .date d => .ok (some d)
      | .str s0 =>
        let dateStr := pyStrip s0
        if regexCanonical dateStr then
          match canonicalParse dateStr with
          | some d => .ok (some d)
          | none => .error { result with
                             isValid := false,
                             errors := ["Invalid date: ".data ++ dateStr] }
        else
          match parseOtherFormats dateStr with
          | some d => .ok (some d)
          | none => .error { result with
                             isValid := false,
                             errors := ["Could not parse date: ".data ++ dateStr] }
      | _ => .ok none
    match parsed with
    | .error r => r
    | .ok none => result
    | .ok (some d) =>
      let formatted := strftimeDdMmmYy d
      let r1 :=
        if pyStrOf value ≠ formatted then
          { result with correction := some (.str formatted),
                        correctionType := some .normalization }
        else result
      let firstDt : Option DateV :=
        match rowData with
        | some ctx =>
          if cellTruthy ctx.row.firstDate then
            match ctx.row.firstDate with
            | .date fd => some fd
            | .str fs => if regexCanonical fs then canonicalParse fs else none
            | _ => none
          else none
        | none => none
      let r2 :=
        if (match firstDt with
            | some fd => decide (d.encode < fd.encode)
            | none => false) then
          { r1 with warnings := r1.warnings ++ ["Last Date is before First Date".data] }
        else r1
      let r3 :=
        if env.today.encode < d.encode then
          { r2 with isValid := false,
                    errors := r2.errors ++
                      ["Date cannot be in the future: ".data ++ formatted] }
        else r2
      { r3 with meta := { r3.meta with datetimeV := some d } }

/-- `YearValidator.validate`. -/
def YearValidator.validate (env : Env) (value : CellValue)
    (rowData : Option RowCtx) : ValidationResult :=
  let result : ValidationResult := { fieldName := "Year".data, value := value }
  if isBlankCell value ∧ rowData.isSome then
    match rowData with
    | some ctx =>
      match ctx.row.firstDate with
      | .date d =>
        { result with correction := some (.int (d.year : Int)),
                      correctionType := some .correction,
                      warnings := result.warnings ++
                        ["Year auto-filled from First Date: ".data ++ natToStr d.year] }
      | _ => { result with isValid := false, errors := ["Year is required".data] }
    | none => result
  else
    match pyInt value with
    | some y =>
      let r1 :=
        if y < 1000 ∨ 9999 < y then
          { result with isValid := false,
                        errors := result.errors ++ ["Year must be 4 digits".data] }
        else result
      let r2 :=
        if 3 < (env.today.year : Int) - y then
          { r1 with warnings := r1.warnings ++
              ["Year is more than 3 years old: ".data ++ intToStr y] }
        else r1
      if (env.today.year : Int) < y then
        { r2 with isValid := false,
                  errors := r2.errors ++
                    ["Year cannot be in the future: ".data ++ intToStr y] }
      else r2
    | none =>
      { result with isValid := false,
                    errors := ["Year must be numeric: ".data ++ pyStrOf value] }

/-! ### `agents/metadata.py` -/

/-- An optional regex sign `[-+]?`. -/
def eatSign (s : Str) : Str :=
  match s with
  | c :: rest => if c = '-' ∨ c = '+' then rest else s
  | [] => []

/-- `\d{1,3}` followed by a non-digit (with the surrounding position search,
this is equivalent to the backtracking regex). -/
def eatDigits13 (s : Str) : Option Str :=
  let ds := s.takeWhile Char.isDigit
  if 1 ≤ ds.length ∧ ds.length ≤ 3 then some (s.drop ds.length) else none

/-- `\d{1,2}` followed by a non-digit. -/
def eatDigits12 (s : Str) : Option Str :=
  let ds := s.takeWhile Char.isDigit
  if 1 ≤ ds.length ∧ ds.length ≤ 2 then some (s.drop ds.length) else none

/-- `\d+`. -/
def eatDigits1p (s : Str) : Option Str :=
  let ds := s.takeWhile Char.isDigit
  if 1 ≤ ds.length then some (s.drop ds.length) else none

/-- A single literal character. -/
def eatChar (c : Char) (s : Str) : Option Str :=
  match s with
  | c₂ :: rest => if c₂ = c then some rest else none
  | [] => none

/-- `\s*`. -/
def eatSpaces (s : Str) : Str := s.dropWhile Char.isWhitespace

/-- A match attempt of `GPS_DECIMAL_PATTERN`
(`[-+]?\d{1,3}\.\d+\s*,\s*[-+]?\d{1,3}\.\d+`) anchored at the current
position. -/
def gpsDecimalAt (s : Str) : Bool :=
  match eatDigits13 (eatSign s) with
  | none => false
  | some s1 =>
    match eatChar '.' s1 with
    | none => false
    | some s2 =>
      match eatDigits1p s2 with
      | none => false
      | some s3 =>
        match eatChar ',' (eatSpaces s3) with
        | none => false
        | some s4 =>
          match eatDigits13 (eatSign (eatSpaces s4)) with
          | none => false
          | some s5 =>
            match eatChar '.' s5 with
            | none => false
            | some s6 => (eatDigits1p s6).isSome

/-- The ASCII apostrophe accepted as a minutes mark. -/
def minuteQuote : Char := Char.ofNat 39

/-- One coordinate half of `GPS_DMS_PATTERN`:
degrees `°`, minutes with a prime, seconds with an optional fraction and an
optional double prime, then a compass letter. -/
def eatDmsHalf (s : Str) : Option Str :=
  match eatDigits13 s with
  | none => none
  | some s1 =>
    match eatChar '°' s1 with
    | none => none
    | some s2 =>
      match eatDigits12 (eatSpaces s2) with
      | none => none
      | some s3 =>
        match (match s3 with
               | c :: rest => if c = minuteQuote ∨ c = '′' then some rest else none
               | [] => none) with
        | none => none
        | some s4 =>
          match eatDigits12 (eatSpaces s4) with
          | none => none
          | some s5 =>
            let s6 := match s5 with
              | '.' :: rest =>
                match eatDigits1p rest with
                | some r => r
                | none => s5
              | _ => s5
            let s7 := match s6 with
              | c :: rest => if c = '"' ∨ c = '″' then rest else s6
              | [] => s6
            match eatSpaces s7 with
            | c :: rest =>
              if c = 'N' ∨ c = 'S' ∨ c = 'E' ∨ c = 'W' then some rest else none
            | [] => none

/-- A match attempt of `GPS_DMS_PATTERN` anchored at the current position
(two halves joined by `\s*,?\s*`). -/
def gpsDmsAt (s : Str) : Bool :=
  match eatDmsHalf s with
  | none => false
  | some s1 =>
    let s2 := eatSpaces s1
    let s3 := match eatChar ',' s2 with
      | some r => r
      | none => s2
    (eatDmsHalf (eatSpaces s3)).isSome

/-- `re.search(GPS_DECIMAL_PATTERN, comments)`. -/
def hasGpsDecimal (s : Str) : Bool := s.tails.any gpsDecimalAt

/-- `re.search(GPS_DMS_PATTERN, comments)`. -/
def hasGpsDms (s : Str) : Bool := s.tails.any gpsDmsAt

/-- `LocationValidator.validate`.  The LLM call is
`execute_ai_task(...)` followed by `.strip()` (the base class already strips
the model output; stripping is idempotent). -/
def LocationValidator.validate (env : Env) (value : CellValue)
    (_rowData : Option RowCtx) : ValidationResult :=
  let result : ValidationResult := { fieldName := "Specific Location".data, value := value }
  if isBlankCell value then
    { result with isValid := false, errors := ["Specific Location is required".data] }
  else
    let location := pyStrip (pyStrOf value)
    if 50 < location.length then
      let r1 := { result with
                  isValid := false,
                  errors := ["Location exceeds 50 characters: ".data
                    ++ natToStr location.length] }
      match env.llmShortenLocation location with
      | .ok out =>
        let shortened := pyStrip out
        if 50 < shortened.length then
          { r1 with
            warnings := r1.warnings ++
              ["LLM output too long (".data ++ natToStr shortened.length
                ++ " chars): ".data ++ shortened],
            errors := r1.errors ++ ["Auto-shortening failed - needs manual review".data],
            meta := { r1.meta with needsManualShortening := true } }
        else
          { r1 with correction := some (.str shortened),
                    correctionType := some .correction,
                    meta := { r1.meta with aiShortened := true } }
      | .error e =>
        { r1 with
          errors := r1.errors ++
            ["Could not automatically shorten location: ".data ++ e],
          meta := { r1.meta with needsManualShortening := true } }
    else result

/-- `NameValidator.validate`. -/
def NameValidator.validate (value : CellValue) (_rowData : Option RowCtx) :
    ValidationResult :=
  let result : ValidationResult := { fieldName := "Name".data, value := value }
  if isBlankCell value then result
  else
    let nameCode := pyStrip (pyStrOf value)
    let r1 :=
      if 3 < nameCode.length then
        { result with isValid := false,
                      errors := ["Name code must be 3 characters or less".data] }
      else result
    { r1 with meta := { r1.meta with needsContributorCheck := true } }

/-- `CommentValidator.validate` (the base class strips the LLM output). -/
def CommentValidator.validate (env : Env) (value : CellValue)
    (_rowData : Option RowCtx) : ValidationResult :=
  let result : ValidationResult := { fieldName := "Comments".data, value := value }
  if isBlankCell value then result
  else
    let comments := pyStrip (pyStrOf value)
    let r1 :=
      if hasGpsDecimal comments ∨ hasGpsDms comments then
        { result with meta := { result.meta with hasGpsCoords := true } }
      else result
    if 120 < comments.length then
      let r2 := { r1 with warnings := r1.warnings ++
          ["Comments exceed 120 characters: ".data ++ natToStr comments.length] }
      match env.llmShortenComment comments with
      | .ok out =>
        { r2 with correction := some (.str (pyStrip out)),
                  correctionType := some .correction,
                  meta := { r2.meta with aiShortened := true } }
      | .error e =>
        { r2 with errors := r2.errors ++
            ["Could not automatically shorten comment: ".data ++ e] }
    else r1

/-! ### `validator.py` — the row orchestrator -/

/-- A validator invocation inside the `validate_row` loop: the cell value and
the shared mutable `row_dict`; a `.error` is an uncaught exception escaping
the validator. -/
abbrev ValidatorStep := CellValue → RowCtx → Except Str (ValidationResult × RowCtx)

/-- One entry of `self.validators`, carrying the `field_name` its constructor
received. -/
structure ValidatorObj where
  fieldName : Str
  step : ValidatorStep

/-- `_create_validators()`: the sixteen validators in construction order.
Only the Species and County validators write to the shared `row_dict`; the
State validator is the only one that can raise out of `validate`. -/
def validatorObjs (env : Env) : List ValidatorObj :=
  [{ fieldName := "Zone".data,
     step := fun v ctx => .ok (ZoneValidator.validate v (some ctx), ctx) },
   { fieldName := "Country".data,
     step := fun v ctx => .ok (CountryValidator.validate v (some ctx), ctx) },
   { fieldName := "State".data,
     step := fun v ctx => (StateValidator.validate v (some ctx)).map (fun r => (r, ctx)) },
   { fieldName := "Family".data,
     step := fun v ctx => .ok (FamilyValidator.validate env v (some ctx), ctx) },
   { fieldName := "Genus".data,
     step := fun v ctx => .ok (GenusValidator.validate v (some ctx), ctx) },
   { fieldName := "Species".data,
     step := fun v ctx =>
       match SpeciesValidator.validate env v (some ctx) with
       | (r, some c₂) => .ok (r, c₂)
       | (r, none) => .ok (r, ctx) },
   { fieldName := "Sub-species".data,
     step := fun v ctx => .ok (SubspeciesValidator.validate env v (some ctx), ctx) },
   { fieldName := "County".data,
     step := fun v ctx =>
       match CountyValidator.validate env v (some ctx) with
       | (r, some c₂) => .ok (r, c₂)
       | (r, none) => .ok (r, ctx) },
   { fieldName := "State Record".data,
     step := fun v ctx => .ok (StateRecordValidator.validate env v (some ctx), ctx) },
   { fieldName := "County Record".data,
     step := fun v ctx => .ok (CountyRecordValidator.validate env v (some ctx), ctx) },
   { fieldName := "Specific Location".data,
     step := fun v ctx => .ok (LocationValidator.validate env v (some ctx), ctx) },
   { fieldName := "First Date".data,
     step := fun v ctx => .ok (FirstDateValidator.validate env v (some ctx), ctx) },
   { fieldName := "Last Date".data,
     step := fun v ctx => .ok (LastDateValidator.validate env v (some ctx), ctx) },
   { fieldName := "Name".data,
     step := fun v ctx => .ok (NameValidator.validate v (some ctx), ctx) },
   { fieldName := "Comments".data,
     step := fun v ctx => .ok (CommentValidator.validate env v (some ctx), ctx) },
   { fieldName := "Year".data,
     step := fun v ctx => .ok (YearValidator.validate env v (some ctx), ctx) }]

/-- `config.COLUMN_NAMES`. -/
def COLUMN_NAMES : List Str :=
  (["Zone", "Country", "State", "Family", "Genus", "Species",
    "Sub-species", "County", "State Record", "County Record",
    "Specific Location", "First Date", "Last Date", "Name",
    "Comments", "Year"]).map String.data

/-- The cells of a row in positional order (`row_data.iloc[i]`). -/
def rawCells (row : RawRow) : List CellValue :=
  [row.zone, row.country, row.state, row.family, row.genus, row.species,
   row.subspecies, row.county, row.stateRecord, row.countyRecord,
   row.specificLocation, row.firstDate, row.lastDate, row.name,
   row.comments, row.year]

/-- The per-validator bookkeeping of the `validate_row` loop body: store the
field result, fold in validity/errors/warnings (prefixed with the column
name), merge a non-`None` correction, store non-empty metadata and update
`needs_review`. -/
def absorbResult (acc : RowResult) (colName : Str) (r : ValidationResult) :
    RowResult :=
  let acc := { acc with fieldResults := acc.fieldResults ++ [(colName, r)] }
  let acc :=
    if ¬ r.isValid then
      { acc with isValid := false,
                 errors := acc.errors ++ r.errors.map (fun e => colName ++ ": ".data ++ e) }
    else acc
  let acc :=
    if r.warnings ≠ [] then
      { acc with warnings := acc.warnings ++
          r.warnings.map (fun w => colName ++ ": ".data ++ w) }
    else acc
  let acc :=
    match r.correction with
    | some c => { acc with corrections := acc.corrections ++ [(colName, c)] }
    | none => acc
  let acc :=
    if r.meta ≠ {} then { acc with metadataMap := acc.metadataMap ++ [(colName, r.meta)] }
    else acc
  if r.meta.needsInatCheck ∨ r.meta.needsInatVerification then
    { acc with needsReview := true }
  else acc

/-- The `for i, (col_name, validator) in enumerate(zip(...))` loop of
`validate_row`, together with the surrounding `try`: an exception anywhere in
the loop jumps to the handler, which marks the row invalid and appends a
`Validation error:` row-level error — the remaining validators do not run. -/
def runValidatorLoop : List (Str × ValidatorStep) → List CellValue → Nat →
    RowCtx → RowResult → RowResult
  | [], _, _, _, acc => acc
  | (colName, step) :: rest, cells, i, ctx, acc =>
    match step (cells.getD i .blank) ctx with
    | .error e =>
      { acc with isValid := false,
                 errors := acc.errors ++ ["Validation error: ".data ++ e] }
    | .ok (r, ctx₂) =>
      runValidatorLoop rest cells (i + 1) ctx₂ (absorbResult acc colName r)

/-- `validate_row(row_index, row_data)`. -/
def validateRow (env : Env) (rowIndex : Nat) (row : RawRow) : RowResult :=
  runValidatorLoop
    (COLUMN_NAMES.zip ((validatorObjs env).map ValidatorObj.step))
    (rawCells row) 0 { row := row } { rowIndex := rowIndex }

/-- The `passed` predicate of `_print_summary`:
`r['is_valid'] and not r['corrections']`. -/
def rowPassed (r : RowResult) : Bool := r.isValid ∧ r.corrections = []

/-! ### Specification-side definitions used by the theorems -/

/-- The `row_index` values of a result list. -/
def rowIndexes (results : List RowResult) : List Nat :=
  results.map RowResult.rowIndex

/-- Find-and-flag of the first result with the given `row_index` (shown equal
to `flagRowAt` below). -/
def updateFirst (results : List RowResult) (idx : Nat) (msg : Str) :
    List RowResult :=
  match results with
  | [] => []
  | r :: rest =>
    if r.rowIndex = idx then flagResult r msg :: rest
    else r :: updateFirst rest idx msg

/-- Which earliest-row a given row index is flagged against by the
state-record pass, walking the species groups in order. -/
def stateFlag (df : List RawRow) : List (Str × List Nat) → Nat → Option Nat
  | [], _ => none
  | g :: rest, n =>
    let srs := stateRecordRows df g.2
    let e := findEarliestRecord df srs
    if 1 < srs.length ∧ n ∈ srs ∧ n ≠ e then some e
    else stateFlag df rest n

/-- The date-comparison key of a row: whether its `First Date` fails to parse
(unparseable sorts last) and the parsed date (with the `datetime.max`
sentinel). -/
def qaDateKey (df : List RawRow) (n : Nat) : Nat × Nat :=
  (qaNoneBit (parseDateQA (dfRow df n).firstDate),
   qaDateNat (parseDateQA (dfRow df n).firstDate))

/-- Strict lexicographic order on pairs. -/
def lex2Lt (a b : Nat × Nat) : Prop :=
  a.1 < b.1 ∨ (a.1 = b.1 ∧ a.2 < b.2)

/-- The structural invariants of the species grouping: every group's index
list is strictly increasing, and distinct groups have disjoint index lists. -/
def QAGroupsOK (groups : List (Str × List Nat)) : Prop :=
  (∀ g ∈ groups, g.2.Sorted (· < ·)) ∧
  groups.Pairwise (fun g h => ∀ n, n ∈ g.2 → n ∉ h.2)

/-! ### Proof-side definitions and the concrete rows, environments and oracles used by the witnesses -/

def dfC1 : List RawRow :=
  [{ family := .str "Pieridae".data, genus := .str "Pieris".data,
     species := .str "rapae".data, stateRecord := .str "Y".data,
     firstDate := .str "01-JAN-22".data },
   { family := .str "Pieridae".data, genus := .str "Pieris".data,
     species := .str "rapae".data, stateRecord := .str "Y".data,
     firstDate := .str "01-JAN-20".data }]

def resC1 : List RowResult := [{ rowIndex := 0 }, { rowIndex := 1 }]

def dfC2 : List RawRow :=
  [{ family := .str "Pieridae".data, genus := .str "Pieris".data,
     species := .str "rapae".data, stateRecord := .str "Y".data,
     firstDate := .str "01-JAN-22".data },
   { family := .str "Pieridae".data, genus := .str "Pieris".data,
     species := .str "rapae".data, stateRecord := .str "Y".data,
     firstDate := .str "01-JAN-20".data }]

def resC2 : List RowResult := [{ rowIndex := 0 }, { rowIndex := 1 }]

def fresC3 : ValidationResult :=
  { fieldName := "Specific Location".data, value := .blank,
    meta := { aiShortened := true } }

def rowResC3 : RowResult :=
  { rowIndex := 0,
    corrections := [("Specific Location".data, .str "Zorgon Rd".data)],
    fieldResults := [("Specific Location".data, fresC3)] }

def dfC3 : List RawRow :=
  [{ specificLocation := .str "A very long road description near the lake".data }]

def resC3 : List RowResult := [rowResC3]

def fresC4 : ValidationResult :=
  { fieldName := "Comments".data, value := .blank,
    meta := { aiShortened := true } }

def dfC4 : List RawRow :=
  [{ comments := .str "Highway 61 north of Duluth".data }]

def resC4 : List RowResult :=
  [{ rowIndex := 0,
     corrections := [("Comments".data, .str "HWY61 N of Duluth".data)],
     fieldResults := [("Comments".data, fresC4)] }]

def resC4sep : List RowResult :=
  [{ rowIndex := 0,
     corrections := [("Comments".data, .str "HWY 61 N of Duluth".data)],
     fieldResults := [("Comments".data, fresC4)] }]

def resC4inv : List RowResult :=
  [{ rowIndex := 0,
     corrections := [("Comments".data, .str "HWY 61 N of Zorgon".data)],
     fieldResults := [("Comments".data, fresC4)] }]

/-- Proof-side: all steps of a validator prefix succeed (no exception). -/
def stepsOk : List (Str × ValidatorStep) → List CellValue → Nat → RowCtx → Prop
  | [], _, _, _ => True
  | (_, f) :: rest, cells, i, ctx =>
    match f (cells.getD i .blank) ctx with
    | .error _ => False
    | .ok (_, ctx₂) => stepsOk rest cells (i + 1) ctx₂

/-- Proof-side: the loop state (context, accumulator, column index) after a
prefix of successful validator steps. -/
def loopStateAfter : List (Str × ValidatorStep) → List CellValue → Nat →
    RowCtx → RowResult → RowCtx × RowResult × Nat
  | [], _, i, ctx, acc => (ctx, acc, i)
  | (c, f) :: rest, cells, i, ctx, acc =>
    match f (cells.getD i .blank) ctx with
    | .error _ => (ctx, acc, i)
    | .ok (r, ctx₂) => loopStateAfter rest cells (i + 1) ctx₂ (absorbResult acc c r)

def envC5 : Env := { today := ⟨2025, 6, 1⟩ }

def rowC5 : RawRow :=
  { zone := .str "5".data,
    state := .str "WI".data,
    family := .str "Pieridae".data,
    genus := .str "Pieris".data,
    species := .str "rapae".data,
    county := .str "Dane".data,
    specificLocation := .str "Madison".data,
    firstDate := .str "15-JUN-23".data,
    year := .str "2023".data }

def stepOkC5 : ValidatorStep :=
  fun _ ctx => .ok ({ fieldName := "A".data, value := .blank }, ctx)

def stepRaiseC5 : ValidatorStep := fun _ _ => .error "boom".data

def mockOracleC6 : InatOracle :=
  { checkSpecies := fun _ _ _ => .error "unavailable".data,
    checkLocation := fun _ _ _ => .error "unavailable".data,
    checkRecordStatus := fun _ _ _ _ => .error "unavailable".data }

def envC6 : Env := { today := ⟨2025, 6, 1⟩, inat := some mockOracleC6 }

def ctxC6 : RowCtx := { row := { state := .str "WI".data } }

def rowC10 : RawRow :=
  { zone := .str "5".data,
    country := .str "usa".data,
    state := .str "WI".data,
    family := .str "Pieridae".data,
    genus := .str "Pieris".data,
    species := .str "rapae".data,
    county := .str "Dane".data,
    specificLocation := .str "Madison".data,
    firstDate := .str "15-JUN-23".data,
    year := .str "2023".data }

def envC10 : Env := { today := ⟨2025, 6, 1⟩ }

def rowC7 : RawRow :=
  { zone := .str "5".data,
    country := .str "USA".data,
    state := .str "WI".data,
    family := .str "Pieridae".data,
    genus := .str "Pieris".data,
    species := .str "rapae".data,
    county := .str "Dane".data,
    specificLocation := .str "Madison".data,
    firstDate := .str "15-JUN-23".data,
    year := .str "2023".data }

def respC7 : SpeciesResp := { valid := true, taxonId := some 777 }

def oracleC7 : InatOracle :=
  { checkSpecies := fun _ _ _ => .ok respC7,
    checkLocation := fun _ _ _ => .ok { valid := true, placeId := some 11 },
    checkRecordStatus := fun _ _ _ _ => .ok { existingCount := 3 } }

def envC7 : Env := { today := ⟨2025, 6, 1⟩, inat := some oracleC7 }

def srC7 : ValidationResult :=
  { fieldName := "State".data, value := .str "WI".data,
    correction := some (.str "WI".data),
    correctionType := some .normalization }

/-- The FieldValue invariant of `spec.md`: an invalid result carries at least
one error, and a set correction carries a correction kind. -/
def fieldInvariant (r : ValidationResult) : Prop :=
  (r.isValid = false → r.errors ≠ []) ∧
  (r.correction ≠ none → r.correctionType ≠ none)

/-- The row-level half of the invariant for `validate_row` results. -/
def rowInvariant (r : RowResult) : Prop :=
  r.isValid = false → r.errors ≠ []

def rowC9 : RawRow := { country := .str "usa".data, year := .str "1999".data }

def envC9 : Env := { today := ⟨2025, 6, 1⟩ }

/-! ### Theorems -/


theorem flagResult_rowIndex (r : RowResult) (msg : Str) :
    (flagResult r msg).rowIndex = r.rowIndex := rfl

theorem map_id_of_mem {α : Type} {l : List α} {f : α → α}
    (h : ∀ x ∈ l, f x = x) : l.map f = l := by
  have h2 : ∀ x ∈ l, f x = id x := h
  rw [List.map_congr_left h2, List.map_id]

theorem flagRowAt_eq_updateFirst :
    ∀ (results : List RowResult) (idx : Nat) (msg : Str),
      flagRowAt results idx msg = updateFirst results idx msg
  | [], _, _ => rfl
  | r :: rest, idx, msg => by
    have ih := flagRowAt_eq_updateFirst rest idx msg
    by_cases h : r.rowIndex = idx
    · simp [flagRowAt, findResultIndex, h, modifyAt, updateFirst]
    · simp only [flagRowAt, findResultIndex, if_neg h, updateFirst] at ih ⊢
      cases hfind : findResultIndex rest idx with
      | none => simp only [hfind] at ih ⊢; simp [← ih]
      | some j => simp only [hfind] at ih ⊢; simp [modifyAt, ← ih]

theorem rowIndexes_map_pres (f : RowResult → RowResult)
    (hf : ∀ r, (f r).rowIndex = r.rowIndex) (l : List RowResult) :
    rowIndexes (l.map f) = rowIndexes l := by
  unfold rowIndexes
  rw [List.map_map]
  exact List.map_congr_left (fun a _ => hf a)

theorem updateFirst_eq_map :
    ∀ (results : List RowResult) (idx : Nat) (msg : Str),
      (rowIndexes results).Nodup →
      updateFirst results idx msg =
        results.map (fun r => if r.rowIndex = idx then flagResult r msg else r)
  | [], _, _, _ => rfl
  | r :: rest, idx, msg, hnd => by
    have hh : (∀ x ∈ rest, ¬ x.rowIndex = r.rowIndex) ∧
        (List.map RowResult.rowIndex rest).Nodup := by
      simpa [rowIndexes] using hnd
    have hnd2 : (rowIndexes rest).Nodup := hh.2
    by_cases h : r.rowIndex = idx
    · have hrest : rest.map (fun r => if r.rowIndex = idx then flagResult r msg else r) = rest := by
        apply map_id_of_mem
        intro x hx
        have hne : x.rowIndex ≠ idx := by
          intro he
          exact hh.1 x hx (he.trans h.symm)
        simp [hne]
      simp [updateFirst, h, hrest]
    · have ih := updateFirst_eq_map rest idx msg hnd2
      simp [updateFirst, h, ih]

theorem rowIndexes_nodup_map (f : RowResult → RowResult)
    (hf : ∀ r, (f r).rowIndex = r.rowIndex) (l : List RowResult)
    (h : (rowIndexes l).Nodup) : (rowIndexes (l.map f)).Nodup := by
  rw [rowIndexes_map_pres f hf]; exact h

/-- The inner flagging loop of one species group rewrites every result whose
row index is a non-earliest member of the flagged set. -/
theorem foldFlag_eq_map (msg : Str) (e : Nat) :
    ∀ (srs : List Nat) (results : List RowResult),
      (rowIndexes results).Nodup → srs.Nodup →
      srs.foldl (fun res idx => if idx ≠ e then flagRowAt res idx msg else res) results =
        results.map (fun r =>
          if r.rowIndex ∈ srs ∧ r.rowIndex ≠ e then flagResult r msg else r)
  | [], results, _, _ => by
    simp only [List.foldl_nil]
    exact (map_id_of_mem (by intro x hx; simp)).symm
  | a :: srs, results, hnd, hsnd => by
    have hanot : a ∉ srs := (List.nodup_cons.mp hsnd).1
    have hsnd2 : srs.Nodup := (List.nodup_cons.mp hsnd).2
    rw [List.foldl_cons]
    by_cases hae : a = e
    · subst hae
      simp only [ne_eq, not_true_eq_false, if_false]
      rw [foldFlag_eq_map msg a srs results hnd hsnd2]
      apply List.map_congr_left
      intro r _
      by_cases hr : r.rowIndex ∈ srs ∧ r.rowIndex ≠ a
      · rw [if_pos hr, if_pos ⟨List.mem_cons_of_mem a hr.1, hr.2⟩]
      · rw [if_neg hr, if_neg]
        intro ⟨h1, h2⟩
        rcases List.mem_cons.mp h1 with h | h
        · exact h2 h
        · exact hr ⟨h, h2⟩
    · simp only [ne_eq, hae, not_false_eq_true, if_true]
      rw [flagRowAt_eq_updateFirst, updateFirst_eq_map results a msg hnd]
      rw [foldFlag_eq_map msg e srs _
        (rowIndexes_nodup_map _ (by intro r; by_cases h : r.rowIndex = a <;> simp [h, flagResult]) _ hnd)
        hsnd2]
      rw [List.map_map]
      apply List.map_congr_left
      intro r _
      simp only [Function.comp]
      by_cases hra : r.rowIndex = a
      · have h1 : (flagResult r msg).rowIndex = a := hra
        rw [if_pos hra, if_neg, if_pos]
        · refine ⟨?_, ?_⟩
          · rw [hra]; exact List.mem_cons_self a srs
          · rw [hra]; exact hae
        · rw [h1]
          intro ⟨hmem, _⟩
          exact hanot hmem
      · rw [if_neg hra]
        by_cases hr : r.rowIndex ∈ srs ∧ r.rowIndex ≠ e
        · rw [if_pos hr, if_pos ⟨List.mem_cons_of_mem a hr.1, hr.2⟩]
        · rw [if_neg hr, if_neg]
          intro ⟨h1, h2⟩
          rcases List.mem_cons.mp h1 with h | h
          · exact hra h
          · exact hr ⟨h, h2⟩

theorem stateFlag_cons (df : List RawRow) (g : Str × List Nat)
    (rest : List (Str × List Nat)) (n : Nat) :
    stateFlag df (g :: rest) n =
      (if 1 < (stateRecordRows df g.2).length ∧ n ∈ stateRecordRows df g.2 ∧
          n ≠ findEarliestRecord df (stateRecordRows df g.2)
       then some (findEarliestRecord df (stateRecordRows df g.2))
       else stateFlag df rest n) := rfl

theorem stateFlag_eq_none (df : List RawRow) :
    ∀ (groups : List (Str × List Nat)) (n : Nat),
      (∀ g ∈ groups, n ∉ g.2) → stateFlag df groups n = none
  | [], _, _ => rfl
  | g :: rest, n, h => by
    have hn : n ∉ stateRecordRows df g.2 := by
      intro hmem
      exact h g (List.mem_cons_self g rest) (List.mem_filter.mp hmem).1
    rw [stateFlag_cons, if_neg]
    · exact stateFlag_eq_none df rest n
        (fun g2 hg2 => h g2 (List.mem_cons_of_mem g hg2))
    · intro hcon
      exact hn hcon.2.1

/-- The whole state-record pass is the pointwise application of `stateFlag`
to every result (given well-formed groups and distinct row indices). -/
theorem validateStateRecordsWith_eq_map (df : List RawRow) :
    ∀ (groups : List (Str × List Nat)) (results : List RowResult),
      QAGroupsOK groups → (rowIndexes results).Nodup →
      validateStateRecordsWith df groups results =
        results.map (fun r =>
          match stateFlag df groups r.rowIndex with
          | some e => flagResult r (dupStateMsg e)
          | none => r)
  | [], results, _, _ => by
    simp only [validateStateRecordsWith, List.foldl_nil]
    exact (map_id_of_mem (by intro x hx; simp [stateFlag])).symm
  | g :: rest, results, hOK, hnd => by
    have hOKrest : QAGroupsOK rest :=
      ⟨fun h hm => hOK.1 h (List.mem_cons_of_mem g hm), (List.pairwise_cons.mp hOK.2).2⟩
    have hdisj : ∀ h ∈ rest, ∀ n, n ∈ g.2 → n ∉ h.2 :=
      fun h hm n hn => (List.pairwise_cons.mp hOK.2).1 h hm n hn
    have hgsorted : g.2.Sorted (· < ·) := hOK.1 g (List.mem_cons_self g rest)
    have hsrsnd : (stateRecordRows df g.2).Nodup :=
      (hgsorted.nodup).filter _
    show validateStateRecordsWith df rest (processStateGroup df results g.2) = _
    by_cases hlen : 1 < (stateRecordRows df g.2).length
    · set srs := stateRecordRows df g.2 with hsrs
      set e := findEarliestRecord df srs with he
      have hproc : processStateGroup df results g.2 =
          results.map (fun r =>
            if r.rowIndex ∈ srs ∧ r.rowIndex ≠ e then flagResult r (dupStateMsg e) else r) := by
        unfold processStateGroup
        rw [← hsrs, if_pos hlen, ← he]
        exact foldFlag_eq_map (dupStateMsg e) e srs results hnd hsrsnd
      rw [hproc]
      rw [validateStateRecordsWith_eq_map df rest _ hOKrest
        (rowIndexes_nodup_map _ (by
          intro r
          by_cases h : r.rowIndex ∈ srs ∧ r.rowIndex ≠ e <;> simp [h, flagResult]) _ hnd)]
      rw [List.map_map]
      apply List.map_congr_left
      intro r _
      simp only [Function.comp]
      by_cases hr : r.rowIndex ∈ srs ∧ r.rowIndex ≠ e
      · rw [if_pos hr]
        have h1 : (flagResult r (dupStateMsg e)).rowIndex = r.rowIndex := rfl
        have h2 : stateFlag df rest (flagResult r (dupStateMsg e)).rowIndex = none := by
          rw [h1]
          apply stateFlag_eq_none
          intro h2 hh2
          exact fun hmem => hdisj h2 hh2 r.rowIndex (List.mem_filter.mp hr.1).1 hmem
        rw [h2, stateFlag_cons, ← hsrs, ← he, if_pos ⟨hlen, hr.1, hr.2⟩]
      · rw [if_neg hr, stateFlag_cons, ← hsrs, ← he, if_neg]
        intro hcon
        exact hr ⟨hcon.2.1, hcon.2.2⟩
    · have hproc : processStateGroup df results g.2 = results := by
        unfold processStateGroup
        rw [if_neg hlen]
      rw [hproc]
      rw [validateStateRecordsWith_eq_map df rest results hOKrest hnd]
      apply List.map_congr_left
      intro r _
      rw [stateFlag_cons, if_neg]
      intro hcon
      exact hlen hcon.1

theorem assocAppend_mem (k : Str) (n : Nat) :
    ∀ (groups : List (Str × List Nat)),
      ∀ g2 ∈ assocAppend groups k n, ∀ m ∈ g2.2,
        m = n ∨ ∃ g ∈ groups, m ∈ g.2
  | [] => by
    intro g2 hg2 m hm
    simp only [assocAppend, List.mem_singleton] at hg2
    subst hg2
    simp only [List.mem_singleton] at hm
    exact Or.inl hm
  | (k2, l) :: rest => by
    intro g2 hg2 m hm
    unfold assocAppend at hg2
    by_cases hk : k2 = k
    · rw [if_pos hk] at hg2
      rcases List.mem_cons.mp hg2 with h | h
      · subst h
        rcases List.mem_append.mp hm with h2 | h2
        · exact Or.inr ⟨(k2, l), List.mem_cons_self _ _, h2⟩
        · exact Or.inl (List.mem_singleton.mp h2)
      · exact Or.inr ⟨g2, List.mem_cons_of_mem _ h, hm⟩
    · rw [if_neg hk] at hg2
      rcases List.mem_cons.mp hg2 with h | h
      · subst h
        exact Or.inr ⟨(k2, l), List.mem_cons_self _ _, hm⟩
      · rcases assocAppend_mem k n rest g2 h m hm with h2 | h2
        · exact Or.inl h2
        · obtain ⟨g, hg, hmg⟩ := h2
          exact Or.inr ⟨g, List.mem_cons_of_mem _ hg, hmg⟩

theorem assocAppend_sorted (k : Str) (n : Nat) :
    ∀ (groups : List (Str × List Nat)),
      (∀ g ∈ groups, g.2.Sorted (· < ·)) →
      (∀ g ∈ groups, ∀ m ∈ g.2, m < n) →
      ∀ g2 ∈ assocAppend groups k n, g2.2.Sorted (· < ·)
  | [] => by
    intro _ _ g2 hg2
    simp only [assocAppend, List.mem_singleton] at hg2
    subst hg2
    simp [List.Sorted]
  | (k2, l) :: rest => by
    intro hs hb g2 hg2
    unfold assocAppend at hg2
    by_cases hk : k2 = k
    · rw [if_pos hk] at hg2
      rcases List.mem_cons.mp hg2 with h | h
      · subst h
        show (l ++ [n]).Sorted (· < ·)
        rw [List.Sorted, List.pairwise_append]
        refine ⟨hs (k2, l) (List.mem_cons_self _ _), by simp [List.Sorted], ?_⟩
        intro a ha b hb2
        rw [List.mem_singleton.mp hb2]
        exact hb (k2, l) (List.mem_cons_self _ _) a ha
      · exact hs g2 (List.mem_cons_of_mem _ h)
    · rw [if_neg hk] at hg2
      rcases List.mem_cons.mp hg2 with h | h
      · subst h
        exact hs (k2, l) (List.mem_cons_self _ _)
      · exact assocAppend_sorted k n rest
          (fun g hg => hs g (List.mem_cons_of_mem _ hg))
          (fun g hg => hb g (List.mem_cons_of_mem _ hg)) g2 h

theorem assocAppend_disjoint (k : Str) (n : Nat) :
    ∀ (groups : List (Str × List Nat)),
      groups.Pairwise (fun g h => ∀ m, m ∈ g.2 → m ∉ h.2) →
      (∀ g ∈ groups, ∀ m ∈ g.2, m < n) →
      (assocAppend groups k n).Pairwise (fun g h => ∀ m, m ∈ g.2 → m ∉ h.2)
  | [] => by
    intro _ _
    simp [assocAppend]
  | (k2, l) :: rest => by
    intro hd hb
    have hdrest := (List.pairwise_cons.mp hd).2
    have hdhead := (List.pairwise_cons.mp hd).1
    unfold assocAppend
    by_cases hk : k2 = k
    · rw [if_pos hk]
      rw [List.pairwise_cons]
      refine ⟨?_, hdrest⟩
      intro g2 hg2 m hm
      rcases List.mem_append.mp hm with h2 | h2
      · exact hdhead g2 hg2 m h2
      · rw [List.mem_singleton.mp h2]
        intro hmem
        exact absurd (hb g2 (List.mem_cons_of_mem _ hg2) n hmem) (by omega)
    · rw [if_neg hk]
      rw [List.pairwise_cons]
      constructor
      · intro g2 hg2 m hm
        intro hmem
        rcases assocAppend_mem k n rest g2 hg2 m hmem with h2 | h2
        · subst h2
          exact absurd (hb (k2, l) (List.mem_cons_self _ _) m hm) (by omega)
        · obtain ⟨g, hg, hmg⟩ := h2
          exact hdhead g hg m hm hmg
      · exact assocAppend_disjoint k n rest hdrest
          (fun g hg => hb g (List.mem_cons_of_mem _ hg))

theorem assocAppend_bound (k : Str) (n : Nat) :
    ∀ (groups : List (Str × List Nat)),
      (∀ g ∈ groups, ∀ m ∈ g.2, m < n) →
      ∀ g2 ∈ assocAppend groups k n, ∀ m ∈ g2.2, m < n + 1 := by
  intro groups hb g2 hg2 m hm
  rcases assocAppend_mem k n groups g2 hg2 m hm with h | h
  · omega
  · obtain ⟨g, hg, hmg⟩ := h
    have := hb g hg m hmg
    omega

theorem groupRows_ok :
    ∀ (rows : List RawRow) (i : Nat) (groups : List (Str × List Nat)),
      (∀ g ∈ groups, g.2.Sorted (· < ·)) →
      groups.Pairwise (fun g h => ∀ m, m ∈ g.2 → m ∉ h.2) →
      (∀ g ∈ groups, ∀ m ∈ g.2, m < i) →
      QAGroupsOK (groupRows i rows groups)
  | [], _, groups, hs, hd, _ => ⟨hs, hd⟩
  | row :: rest, i, groups, hs, hd, hb => by
    unfold groupRows
    cases hkey : speciesKeyOf row with
    | none =>
      exact groupRows_ok rest (i + 1) groups hs hd
        (fun g hg m hm => Nat.lt_succ_of_lt (hb g hg m hm))
    | some key =>
      exact groupRows_ok rest (i + 1) (assocAppend groups key i)
        (assocAppend_sorted key i groups hs hb)
        (assocAppend_disjoint key i groups hd hb)
        (assocAppend_bound key i groups hb)

theorem groupBySpecies_ok (df : List RawRow) : QAGroupsOK (groupBySpecies df) :=
  groupRows_ok df 0 [] (by simp) (by simp) (by simp)

theorem stateFlag_of_mem (df : List RawRow) :
    ∀ (groups : List (Str × List Nat)),
      groups.Pairwise (fun g h => ∀ m, m ∈ g.2 → m ∉ h.2) →
      ∀ (k : Str) (L : List Nat), (k, L) ∈ groups →
      ∀ n, n ∈ stateRecordRows df L → 1 < (stateRecordRows df L).length →
      stateFlag df groups n =
        if n ≠ findEarliestRecord df (stateRecordRows df L)
        then some (findEarliestRecord df (stateRecordRows df L)) else none
  | [], _, k, L, hmem, _, _, _ => absurd hmem (List.not_mem_nil _)
  | g :: rest, hd, k, L, hmem, n, hn, hlen => by
    have hdhead := (List.pairwise_cons.mp hd).1
    have hdrest := (List.pairwise_cons.mp hd).2
    rcases List.mem_cons.mp hmem with hg | hg
    · have hg2 : g.2 = L := by rw [← hg]
      rw [stateFlag_cons, hg2]
      by_cases hne : n ≠ findEarliestRecord df (stateRecordRows df L)
      · rw [if_pos ⟨hlen, hn, hne⟩, if_pos hne]
      · rw [if_neg (by intro hcon; exact hne hcon.2.2), if_neg hne]
        apply stateFlag_eq_none
        intro h2 hh2 hmem2
        exact hdhead h2 hh2 n (hg2 ▸ (List.mem_filter.mp hn).1) hmem2
    · have hnhead : n ∉ stateRecordRows df g.2 := by
        intro hmem2
        exact hdhead (k, L) hg n (List.mem_filter.mp hmem2).1 (List.mem_filter.mp hn).1
      rw [stateFlag_cons, if_neg (by intro hcon; exact hnhead hcon.2.1)]
      exact stateFlag_of_mem df rest hdrest k L hg n hn hlen

theorem qaLe_refl (x : Nat × Option DateV × Nat) : qaLe x x := by
  unfold qaLe lex3Le; omega

/-- `_find_earliest_record` returns a member of its input that is minimal for
the key (date unparseable, parsed date, position); on key ties the smallest
row index wins (positions follow the strictly increasing input order). -/
theorem findEarliestRecord_spec (df : List RawRow) (S : List Nat)
    (hne : S ≠ []) (hsorted : S.Sorted (· < ·)) :
    findEarliestRecord df S ∈ S ∧
    ∀ idx ∈ S, idx ≠ findEarliestRecord df S →
      lex2Lt (qaDateKey df (findEarliestRecord df S)) (qaDateKey df idx) ∨
        (qaDateKey df (findEarliestRecord df S) = qaDateKey df idx ∧
          findEarliestRecord df S < idx) := by
  have hperm := List.perm_insertionSort qaLe
    (S.enum.map (fun p => (p.2, parseDateQA (dfRow df p.2).firstDate, p.1)))
  have hsort := List.sorted_insertionSort qaLe
    (S.enum.map (fun p => (p.2, parseDateQA (dfRow df p.2).firstDate, p.1)))
  have hlen0 : (List.insertionSort qaLe
      (S.enum.map (fun p => (p.2, parseDateQA (dfRow df p.2).firstDate, p.1)))).length =
      S.length := by
    rw [hperm.length_eq, List.length_map, List.enum_length]
  cases hs : List.insertionSort qaLe
      (S.enum.map (fun p => (p.2, parseDateQA (dfRow df p.2).firstDate, p.1))) with
  | nil =>
    rw [hs] at hlen0
    exact absurd (List.length_eq_zero.mp hlen0.symm) hne
  | cons h t =>
    have hfind : findEarliestRecord df S = h.1 := by
      unfold findEarliestRecord
      simp only [hs, List.headD_cons]
    have hhmem : h ∈ S.enum.map (fun p => (p.2, parseDateQA (dfRow df p.2).firstDate, p.1)) := by
      rw [← hperm.mem_iff, hs]
      exact List.mem_cons_self h t
    obtain ⟨p, hp, hfp⟩ := List.mem_map.mp hhmem
    have hpget : S.get? p.1 = some p.2 := List.mem_enum_iff_get?.mp hp
    have hp2 : p.2 = h.1 := by rw [← hfp]
    have hemem : findEarliestRecord df S ∈ S := by
      rw [hfind, ← hp2]
      exact List.get?_mem hpget
    refine ⟨hemem, ?_⟩
    intro idx hidx hne2
    obtain ⟨pos, hpos⟩ := List.mem_iff_get?.mp hidx
    have hxmem : (idx, parseDateQA (dfRow df idx).firstDate, pos) ∈
        S.enum.map (fun p => (p.2, parseDateQA (dfRow df p.2).firstDate, p.1)) := by
      apply List.mem_map.mpr
      exact ⟨(pos, idx), List.mem_enum_iff_get?.mpr hpos, rfl⟩
    have hle : qaLe h (idx, parseDateQA (dfRow df idx).firstDate, pos) := by
      have hxs : (idx, parseDateQA (dfRow df idx).firstDate, pos) ∈
          List.insertionSort qaLe
            (S.enum.map (fun p => (p.2, parseDateQA (dfRow df p.2).firstDate, p.1))) := by
        rw [hperm.mem_iff]
        exact hxmem
      rw [hs] at hxs
      rcases List.mem_cons.mp hxs with hx | hx
      · rw [hx]
        exact qaLe_refl _
      · rw [hs] at hsort
        exact (List.sorted_cons.mp hsort).1 _ hx
    -- unpack h as the image of p
    have hh2 : h.2.1 = parseDateQA (dfRow df h.1).firstDate := by
      rw [← hfp]
    have hh3 : h.2.2 = p.1 := by rw [← hfp]
    have hkey : qaDateKey df (findEarliestRecord df S) =
        (qaNoneBit h.2.1, qaDateNat h.2.1) := by
      rw [hfind, qaDateKey, ← hh2]
    unfold qaLe lex3Le entryKey at hle
    simp only at hle
    rw [hkey]
    unfold qaDateKey
    rcases hle with h1 | ⟨h1, h2⟩
    · exact Or.inl (Or.inl h1)
    · rcases h2 with h2 | ⟨h2, h3⟩
      · exact Or.inl (Or.inr ⟨h1, h2⟩)
      · -- key tie: compare positions
        by_cases hpp : h.2.2 = pos
        · exfalso
          have hp1 : p.1 = pos := by rw [← hh3, hpp]
          have heq : some p.2 = some idx := by rw [← hpget, hp1, hpos]
          have hpidx : p.2 = idx := Option.some.inj heq
          apply hne2
          rw [hfind, ← hp2, hpidx]
        · have hplt : p.1 < pos := by
            rw [← hh3]
            have h3b : h.2.2 ≤ pos := h3
            omega
          refine Or.inr ⟨by rw [h1, h2], ?_⟩
          obtain ⟨hb1, hg1⟩ := List.get?_eq_some.mp hpget
          obtain ⟨hb2, hg2⟩ := List.get?_eq_some.mp hpos
          have hmono := List.pairwise_iff_get.mp hsorted ⟨p.1, hb1⟩ ⟨pos, hb2⟩
            (Fin.mk_lt_mk.mpr hplt)
          rw [hg1, hg2] at hmono
          rw [hfind, ← hp2]
          exact hmono

/-- Helper: the state-record pass flags the result entry of a non-earliest
affirmative row of a species group. -/
theorem stateRecordsPass_flags (df : List RawRow) (results : List RowResult)
    (hnd : (rowIndexes results).Nodup)
    (k : Str) (L : List Nat) (hkL : (k, L) ∈ groupBySpecies df)
    (hS : 1 < (stateRecordRows df L).length)
    (j : Nat) (r : RowResult) (hget : results.get? j = some r)
    (hmem : r.rowIndex ∈ stateRecordRows df L)
    (hne : r.rowIndex ≠ findEarliestRecord df (stateRecordRows df L)) :
    (validateStateRecords df results).get? j =
      some (flagResult r
        (dupStateMsg (findEarliestRecord df (stateRecordRows df L)))) := by
  have hOK := groupBySpecies_ok df
  have hchar := validateStateRecordsWith_eq_map df (groupBySpecies df) results hOK hnd
  have hflag := stateFlag_of_mem df (groupBySpecies df) hOK.2 k L hkL
    r.rowIndex hmem hS
  rw [if_pos hne] at hflag
  show (validateStateRecordsWith df (groupBySpecies df) results).get? j = _
  rw [hchar, List.get?_map, hget, Option.map_some']
  rw [hflag]

/-- Helper: the state-record pass leaves the earliest row's result entry
unchanged. -/
theorem stateRecordsPass_keeps (df : List RawRow) (results : List RowResult)
    (hnd : (rowIndexes results).Nodup)
    (k : Str) (L : List Nat) (hkL : (k, L) ∈ groupBySpecies df)
    (hS : 1 < (stateRecordRows df L).length)
    (hemem : findEarliestRecord df (stateRecordRows df L) ∈ stateRecordRows df L)
    (j : Nat) (r : RowResult) (hget : results.get? j = some r)
    (heq : r.rowIndex = findEarliestRecord df (stateRecordRows df L)) :
    (validateStateRecords df results).get? j = some r := by
  have hOK := groupBySpecies_ok df
  have hchar := validateStateRecordsWith_eq_map df (groupBySpecies df) results hOK hnd
  have hflag := stateFlag_of_mem df (groupBySpecies df) hOK.2 k L hkL
    r.rowIndex (heq ▸ hemem) hS
  rw [if_neg (by simpa using heq)] at hflag
  show (validateStateRecordsWith df (groupBySpecies df) results).get? j = _
  rw [hchar, List.get?_map, hget, Option.map_some']
  rw [hflag]

/-- Helper: the state-record pass preserves the `row_index` values. -/
theorem rowIndexes_stateRecordsPass (df : List RawRow) (results : List RowResult)
    (hnd : (rowIndexes results).Nodup) :
    (rowIndexes (validateStateRecords df results)).Nodup := by
  show (rowIndexes (validateStateRecordsWith df (groupBySpecies df) results)).Nodup
  rw [validateStateRecordsWith_eq_map df (groupBySpecies df) results
    (groupBySpecies_ok df) hnd]
  apply rowIndexes_nodup_map _ _ _ hnd
  intro r2
  cases hsf : stateFlag df (groupBySpecies df) r2.rowIndex <;> simp [hsf, flagResult]

/-- C1: within every species group of the dataset, when two or more rows carry
an affirmative `State Record`, the QA uniqueness pass keeps exactly the row
with the earliest parseable `First Date` — unparseable dates sort after all
parseable ones (`lex2Lt` on `qaDateKey`, whose first component is the
is-unparseable bit) and date ties go to the smallest original row position —
and every other affirmative row's result is marked invalid with a
duplicate-state-record error naming the kept row, while the kept row's result
is unchanged. -/
theorem qa_state_record_uniqueness (df : List RawRow) (results : List RowResult)
    (hnd : (rowIndexes results).Nodup)
    (k : Str) (L : List Nat) (hkL : (k, L) ∈ groupBySpecies df)
    (hS : 1 < (stateRecordRows df L).length) :
    findEarliestRecord df (stateRecordRows df L) ∈ stateRecordRows df L ∧
    (∀ idx ∈ stateRecordRows df L,
      idx ≠ findEarliestRecord df (stateRecordRows df L) →
      lex2Lt (qaDateKey df (findEarliestRecord df (stateRecordRows df L)))
          (qaDateKey df idx) ∨
        (qaDateKey df (findEarliestRecord df (stateRecordRows df L)) =
            qaDateKey df idx ∧
          findEarliestRecord df (stateRecordRows df L) < idx)) ∧
    (∀ j r, results.get? j = some r → r.rowIndex ∈ stateRecordRows df L →
      r.rowIndex ≠ findEarliestRecord df (stateRecordRows df L) →
      (validateStateRecords df results).get? j =
        some (flagResult r
          (dupStateMsg (findEarliestRecord df (stateRecordRows df L))))) ∧
    (∀ j r, results.get? j = some r →
      r.rowIndex = findEarliestRecord df (stateRecordRows df L) →
      (validateStateRecords df results).get? j = some r) := by
  have hOK := groupBySpecies_ok df
  have hLsorted : L.Sorted (· < ·) := hOK.1 (k, L) hkL
  have hSsorted : (stateRecordRows df L).Sorted (· < ·) := hLsorted.filter _
  have hSne : stateRecordRows df L ≠ [] := by
    intro hcon
    rw [hcon] at hS
    simp at hS
  have hspec := findEarliestRecord_spec df (stateRecordRows df L) hSne hSsorted
  exact ⟨hspec.1, hspec.2,
    fun j r hget hmem hne =>
      stateRecordsPass_flags df results hnd k L hkL hS j r hget hmem hne,
    fun j r hget heq =>
      stateRecordsPass_keeps df results hnd k L hkL hS hspec.1 j r hget heq⟩

/-- Witness for C1 on a concrete two-row dataset. -/
theorem qa_state_record_uniqueness_witness :
    (rowIndexes resC1).Nodup ∧
    ("Pieridae|Pieris|rapae|nan".data, [0, 1]) ∈ groupBySpecies dfC1 ∧
    1 < (stateRecordRows dfC1 [0, 1]).length ∧
    (validateStateRecords dfC1 resC1).get? 0 =
      some (flagResult { rowIndex := 0 } (dupStateMsg 1)) :=
  ⟨by decide, by decide, by decide, by
    have h := (qa_state_record_uniqueness dfC1 resC1 (by decide)
      "Pieridae|Pieris|rapae|nan".data [0, 1] (by decide) (by decide)).2.2.1
      0 { rowIndex := 0 } (by decide) (by decide) (by decide)
    have he : findEarliestRecord dfC1 (stateRecordRows dfC1 [0, 1]) = 1 := by decide
    rw [he] at h
    exact h⟩

/-- C2 counterexample: running `validate_record_uniqueness` a second time on
an already-QA'd result list appends a second copy of the duplicate
state-record error, so the error lists are not unchanged. -/
theorem qa_uniqueness_not_idempotent_counterexample :
    (validateRecordUniqueness dfC2 (validateRecordUniqueness dfC2 resC2)).map
        RowResult.errors ≠
      (validateRecordUniqueness dfC2 resC2).map RowResult.errors := by decide

/-- C2 amended: the record-uniqueness pass is not idempotent — a second run of
the state-record half appends an identical duplicate-state-record error to
every row the first run flagged, instead of leaving the error lists
unchanged. -/
theorem qa_uniqueness_second_run_appends (df : List RawRow)
    (results : List RowResult) (hnd : (rowIndexes results).Nodup)
    (k : Str) (L : List Nat) (hkL : (k, L) ∈ groupBySpecies df)
    (hS : 1 < (stateRecordRows df L).length)
    (j : Nat) (r : RowResult) (hget : results.get? j = some r)
    (hmem : r.rowIndex ∈ stateRecordRows df L)
    (hne : r.rowIndex ≠ findEarliestRecord df (stateRecordRows df L)) :
    (validateStateRecords df (validateStateRecords df results)).get? j =
      some (flagResult
        (flagResult r (dupStateMsg (findEarliestRecord df (stateRecordRows df L))))
        (dupStateMsg (findEarliestRecord df (stateRecordRows df L)))) := by
  have h1 := stateRecordsPass_flags df results hnd k L hkL hS j r hget hmem hne
  have hnd2 := rowIndexes_stateRecordsPass df results hnd
  exact stateRecordsPass_flags df (validateStateRecords df results) hnd2 k L hkL hS j
    (flagResult r (dupStateMsg (findEarliestRecord df (stateRecordRows df L))))
    h1 hmem hne

/-- Witness for the amended C2 theorem on the concrete dataset. -/
theorem qa_uniqueness_second_run_appends_witness :
    (validateStateRecords dfC2 (validateStateRecords dfC2 resC2)).get? 0 =
      some (flagResult (flagResult { rowIndex := 0 } (dupStateMsg 1)) (dupStateMsg 1)) := by
  have h := qa_uniqueness_second_run_appends dfC2 resC2 (by decide)
    "Pieridae|Pieris|rapae|nan".data [0, 1] (by decide) (by decide)
    0 { rowIndex := 0 } (by decide) (by decide) (by decide)
  have he : findEarliestRecord dfC2 (stateRecordRows dfC2 [0, 1]) = 1 := by decide
  rw [he] at h
  exact h


/-- C3: the hallucination pass examines each result against the data-frame row
at its own position; for a field corrected by the AI-shortening oracle
(`ai_shortened` metadata), a non-empty set of offending tokens — tokens of the
shortened text minus tokens of the original minus the allow-list — marks the
row invalid, appends an error naming exactly those tokens (sorted) and deletes
that field's correction; an empty set leaves the row result unchanged. -/
theorem qa_hallucination_check (df : List RawRow) (results : List RowResult)
    (i : Nat) (r : RowResult) (hget : results.get? i = some r) :
    (validateHallucinations df results).get? i =
      some (hallucinationRow (dfRow df i) r) ∧
    (∀ (origCell : CellValue) (fld : Str) (allow : List Str) (sv : CellValue)
        (fres : ValidationResult),
      lookupAssoc r.corrections fld = some sv →
      lookupAssoc r.fieldResults fld = some fres →
      fres.meta.aiShortened = true →
      hallucinatedTokens (pyStrip (pyStrOf origCell)) (pyStrOf sv) allow ≠ [] →
      hallucinationField origCell fld allow r =
        { r with isValid := false,
                 errors := r.errors ++
                   [hallucMsg fld
                     (hallucinatedTokens (pyStrip (pyStrOf origCell)) (pyStrOf sv) allow)],
                 hallucinationDetected := true,
                 corrections := eraseAssoc r.corrections fld }) ∧
    (∀ (origCell : CellValue) (fld : Str) (allow : List Str) (sv : CellValue)
        (fres : ValidationResult),
      lookupAssoc r.corrections fld = some sv →
      lookupAssoc r.fieldResults fld = some fres →
      fres.meta.aiShortened = true →
      hallucinatedTokens (pyStrip (pyStrOf origCell)) (pyStrOf sv) allow = [] →
      hallucinationField origCell fld allow r = r) := by
  refine ⟨?_, ?_, ?_⟩
  · unfold validateHallucinations
    rw [List.get?_map, List.get?_enum, hget]
    rfl
  · intro origCell fld allow sv fres hcorr hfres hai hhall
    unfold hallucinationField
    rw [hcorr, hfres]
    simp only [hai, if_true]
    rw [if_pos hhall]
  · intro origCell fld allow sv fres hcorr hfres hai hhall
    unfold hallucinationField
    rw [hcorr, hfres]
    simp only [hai, if_true]
    rw [if_neg (by simp [hhall])]

/-- Witness for C3: a shortened location containing the invented token
`ZORGON` is flagged, the error names it, and the correction is dropped. -/
theorem qa_hallucination_check_witness :
    lookupAssoc rowResC3.corrections "Specific Location".data =
        some (.str "Zorgon Rd".data) ∧
    lookupAssoc rowResC3.fieldResults "Specific Location".data = some fresC3 ∧
    fresC3.meta.aiShortened = true ∧
    hallucinatedTokens
        (pyStrip (pyStrOf (.str "A very long road description near the lake".data)))
        (pyStrOf (.str "Zorgon Rd".data)) locationAllowList = ["ZORGON".data] ∧
    hallucinationField (.str "A very long road description near the lake".data)
        "Specific Location".data locationAllowList rowResC3 =
      { rowResC3 with
        isValid := false,
        errors := rowResC3.errors ++
          [hallucMsg "Specific Location".data ["ZORGON".data]],
        hallucinationDetected := true,
        corrections := eraseAssoc rowResC3.corrections "Specific Location".data } := by
  refine ⟨by decide, by decide, by decide, by decide, ?_⟩
  have h := (qa_hallucination_check dfC3 resC3 0 rowResC3 (by decide)).2.1
    (.str "A very long road description near the lake".data)
    "Specific Location".data locationAllowList (.str "Zorgon Rd".data) fresC3
    (by decide) (by decide) (by decide) (by decide)
  have he : hallucinatedTokens
      (pyStrip (pyStrOf (.str "A very long road description near the lake".data)))
      (pyStrOf (.str "Zorgon Rd".data)) locationAllowList = ["ZORGON".data] := by decide
  rw [he] at h
  exact h

/-- C4 counterexample: a Comments correction rendering "Highway 61" as the
single token `HWY61` IS flagged as a hallucination by the pass (the fused
token is neither an original token nor allow-listed), the row is invalidated
and the correction dropped — contradicting the claim that no token arising
from this transformation is reported. -/
theorem qa_hwy61_counterexample :
    (validateHallucinations dfC4 resC4).map RowResult.isValid = [false] ∧
    (validateHallucinations dfC4 resC4).map RowResult.errors =
      [[hallucMsg "Comments".data ["HWY61".data]]] ∧
    (validateHallucinations dfC4 resC4).map RowResult.corrections = [[]] := by
  decide

/-- C4 amended: with "Highway 61" in the original, the space-separated
rendering `HWY 61` is not flagged (`HWY` is allow-listed, `61` is an original
token) and the row result is unchanged; the fused rendering `HWY61` is a
single token outside both sets and IS flagged; a wholly invented proper noun
(`ZORGON`) is flagged. -/
theorem qa_hwy61_amended :
    validateHallucinations dfC4 resC4sep = resC4sep ∧
    hallucinatedTokens "Highway 61 north of Duluth".data
        "HWY61 N of Duluth".data commentsAllowList = ["HWY61".data] ∧
    hallucinatedTokens "Highway 61 north of Duluth".data
        "HWY 61 N of Duluth".data commentsAllowList = [] ∧
    (validateHallucinations dfC4 resC4inv).map RowResult.isValid = [false] ∧
    (validateHallucinations dfC4 resC4inv).map RowResult.errors =
      [[hallucMsg "Comments".data ["ZORGON".data]]] := by
  decide


theorem absorbResult_fieldResults (acc : RowResult) (c : Str)
    (r : ValidationResult) :
    (absorbResult acc c r).fieldResults = acc.fieldResults ++ [(c, r)] := by
  unfold absorbResult
  repeat' split
  all_goals rfl

/-- C5 amended: an exception raised by a validator inside `validate_row` is
caught by the loop-level handler — the function still returns a row result,
now invalid, with a row-level `Validation error:` message appended — but the
`try` wraps the whole loop, so the remaining validators are skipped: the
returned field results are exactly those of the validators before the raising
one, and nothing after it runs. -/
theorem validate_row_exception_stops :
    ∀ (pre : List (Str × ValidatorStep)) (c : Str) (f : ValidatorStep)
      (post : List (Str × ValidatorStep)) (cells : List CellValue)
      (i : Nat) (ctx : RowCtx) (acc : RowResult) (e : Str),
      stepsOk pre cells i ctx →
      f (cells.getD (loopStateAfter pre cells i ctx acc).2.2 CellValue.blank)
          (loopStateAfter pre cells i ctx acc).1 = .error e →
      runValidatorLoop (pre ++ (c, f) :: post) cells i ctx acc =
        { (loopStateAfter pre cells i ctx acc).2.1 with
          isValid := false,
          errors := (loopStateAfter pre cells i ctx acc).2.1.errors ++
            ["Validation error: ".data ++ e] } ∧
      (loopStateAfter pre cells i ctx acc).2.1.fieldResults.map Prod.fst =
        acc.fieldResults.map Prod.fst ++ pre.map Prod.fst
  | [], c, f, post, cells, i, ctx, acc, e, _, hraise => by
    simp only [loopStateAfter] at hraise ⊢
    constructor
    · show runValidatorLoop ((c, f) :: post) cells i ctx acc = _
      unfold runValidatorLoop
      rw [hraise]
    · simp
  | (c₀, f₀) :: pre, c, f, post, cells, i, ctx, acc, e, hok, hraise => by
    cases hstep : f₀ (cells.getD i .blank) ctx with
    | error e₀ =>
      exfalso
      unfold stepsOk at hok
      rw [hstep] at hok
      exact hok
    | ok p =>
      obtain ⟨r, ctx₂⟩ := p
      have hok₂ : stepsOk pre cells (i + 1) ctx₂ := by
        unfold stepsOk at hok
        rw [hstep] at hok
        exact hok
      have hstate : loopStateAfter ((c₀, f₀) :: pre) cells i ctx acc =
          loopStateAfter pre cells (i + 1) ctx₂ (absorbResult acc c₀ r) := by
        conv_lhs => unfold loopStateAfter
        rw [hstep]
      rw [hstate] at hraise
      have ih := validate_row_exception_stops pre c f post cells (i + 1) ctx₂
        (absorbResult acc c₀ r) e hok₂ hraise
      constructor
      · show runValidatorLoop ((c₀, f₀) :: (pre ++ (c, f) :: post)) cells i ctx acc = _
        unfold runValidatorLoop
        rw [hstep, hstate]
        exact ih.1
      · rw [hstate]
        rw [ih.2, absorbResult_fieldResults]
        simp

/-- C5 counterexample: with a `NaN` Country and a non-blank State, the State
validator raises; `validate_row` catches it (the call returns, invalid, with a
row-level error) but the thirteen validators after State never run — no field
results are produced for them, contradicting the claim that the remaining
validators still run. -/
theorem validate_row_abort_counterexample :
    (validateRow envC5 0 rowC5).isValid = false ∧
    (validateRow envC5 0 rowC5).errors.getLast? =
      some ("Validation error: 'float' object has no attribute 'upper'".data) ∧
    (validateRow envC5 0 rowC5).fieldResults.map Prod.fst =
      ["Zone".data, "Country".data] ∧
    lookupAssoc (validateRow envC5 0 rowC5).fieldResults "Family".data = none ∧
    lookupAssoc (validateRow envC5 0 rowC5).fieldResults "First Date".data = none := by
  decide

/-- Witness for the amended C5 theorem on a three-step validator list whose
middle step raises. -/
theorem validate_row_exception_stops_witness :
    runValidatorLoop
        [("A".data, stepOkC5), ("B".data, stepRaiseC5), ("C".data, stepOkC5)]
        [] 0 { row := {} } { rowIndex := 0 } =
      { (loopStateAfter [("A".data, stepOkC5)] [] 0 { row := {} }
          { rowIndex := 0 }).2.1 with
        isValid := false,
        errors := (loopStateAfter [("A".data, stepOkC5)] [] 0 { row := {} }
          { rowIndex := 0 }).2.1.errors ++
          ["Validation error: ".data ++ "boom".data] } ∧
    (loopStateAfter [("A".data, stepOkC5)] [] 0 { row := {} }
        { rowIndex := 0 }).2.1.fieldResults.map Prod.fst = ["A".data] := by
  have h := validate_row_exception_stops [("A".data, stepOkC5)] "B".data
    stepRaiseC5 [("C".data, stepOkC5)] [] 0 { row := {} } { rowIndex := 0 }
    "boom".data (by simp [stepsOk, stepOkC5]) rfl
  exact ⟨h.1, by simpa using h.2⟩


/-- C6 counterexample: with a blank value and an unresolved taxon identifier,
the record validators emit only a "cannot verify" warning and do NOT auto-fill
`N` — no correction is set, contradicting the claim. -/
theorem record_blank_unresolved_counterexample :
    (StateRecordValidator.validate envC6 .blank (some ctxC6)).correction = none ∧
    (StateRecordValidator.validate envC6 .blank (some ctxC6)).warnings =
      ["Cannot verify state record - species not found in iNaturalist".data] ∧
    (CountyRecordValidator.validate envC6 .blank (some ctxC6)).correction = none ∧
    (CountyRecordValidator.validate envC6 .blank (some ctxC6)).warnings =
      ["Cannot verify county record - species not found in iNaturalist".data] := by
  decide

/-- C6 amended: for a blank record field, (1) an unresolved taxon identifier
yields only an unverified-field warning and no auto-fill; (2) with a resolved
taxon but no oracle attached, the field is auto-filled to `N` silently (no
warning); (3) with a resolved taxon and state, an oracle call that raises
auto-fills `N` with a warning; (4) an oracle reply carrying an error payload
auto-fills `N` with a warning. -/
theorem record_blank_default_behaviour (env : Env) (value : CellValue)
    (ctx : RowCtx) (hblank : isBlankCell value = true) :
    (optNatTruthy ctx.inatTaxonId = false →
      (StateRecordValidator.validate env value (some ctx)).correction = none ∧
      (StateRecordValidator.validate env value (some ctx)).warnings =
        ["Cannot verify state record - species not found in iNaturalist".data] ∧
      (CountyRecordValidator.validate env value (some ctx)).correction = none ∧
      (CountyRecordValidator.validate env value (some ctx)).warnings =
        ["Cannot verify county record - species not found in iNaturalist".data]) ∧
    (env.inat = none → optNatTruthy ctx.inatTaxonId = true →
      (StateRecordValidator.validate env value (some ctx)).correction =
        some (.str "N".data) ∧
      (StateRecordValidator.validate env value (some ctx)).correctionType =
        some .normalization ∧
      (StateRecordValidator.validate env value (some ctx)).warnings = [] ∧
      (CountyRecordValidator.validate env value (some ctx)).correction =
        some (.str "N".data) ∧
      (CountyRecordValidator.validate env value (some ctx)).warnings = []) ∧
    (∀ oracle taxonId e, env.inat = some oracle →
      ctx.inatTaxonId = some taxonId → taxonId ≠ 0 →
      cellTruthy ctx.row.state = true →
      oracle.checkRecordStatus taxonId (some ctx.row.state) none none = .error e →
      (StateRecordValidator.validate env value (some ctx)).correction =
        some (.str "N".data) ∧
      (StateRecordValidator.validate env value (some ctx)).warnings =
        ["Could not verify state record with iNaturalist: ".data ++ e]) ∧
    (∀ oracle taxonId resp, env.inat = some oracle →
      ctx.inatTaxonId = some taxonId → taxonId ≠ 0 →
      cellTruthy ctx.row.state = true →
      oracle.checkRecordStatus taxonId (some ctx.row.state) none none = .ok resp →
      optStrFalsy resp.error = false →
      (StateRecordValidator.validate env value (some ctx)).correction =
        some (.str "N".data) ∧
      (StateRecordValidator.validate env value (some ctx)).warnings =
        ["Could not verify state record: ".data ++ resp.error.getD []]) := by
  refine ⟨?_, ?_, ?_, ?_⟩
  · intro htaxon
    simp [StateRecordValidator.validate, CountyRecordValidator.validate,
      hblank, htaxon]
  · intro hinat htaxon
    simp [StateRecordValidator.validate, CountyRecordValidator.validate,
      hblank, htaxon, hinat, defaultRecordN]
  · intro oracle taxonId e hinat htaxon htnz hstate hcall
    have htr : optNatTruthy ctx.inatTaxonId = true := by
      rw [htaxon]; simp [optNatTruthy, htnz]
    simp [StateRecordValidator.validate, hblank, htr, hinat, htaxon, htnz,
      hstate, stateRecordOracleStage, hcall, defaultRecordN, optNatTruthy]
  · intro oracle taxonId resp hinat htaxon htnz hstate hcall herr
    have htr : optNatTruthy ctx.inatTaxonId = true := by
      rw [htaxon]; simp [optNatTruthy, htnz]
    simp [StateRecordValidator.validate, hblank, htr, hinat, htaxon, htnz,
      hstate, stateRecordOracleStage, hcall, herr, defaultRecordN, optNatTruthy]

/-- Witness for the amended C6 theorem: the unresolved-taxon scenario on the
concrete context. -/
theorem record_blank_default_behaviour_witness :
    isBlankCell CellValue.blank = true ∧
    optNatTruthy ctxC6.inatTaxonId = false ∧
    (StateRecordValidator.validate envC6 .blank (some ctxC6)).correction = none :=
  ⟨by decide, by decide,
    ((record_blank_default_behaviour envC6 .blank ctxC6 (by decide)).1
      (by decide)).1⟩


theorem digitChar_facts (k : Nat) (h : k < 10) :
    (digitChar k).isDigit = true ∧ (digitChar k).isWhitespace = false ∧
    digitChar k ≠ '-' ∧ (digitChar k).toUpper = digitChar k ∧
    (digitChar k).toNat - '0'.toNat = k := by
  interval_cases k <;> refine ⟨by decide, by decide, by decide, by decide, by decide⟩

theorem natToStrAux_chars :
    ∀ (fuel n : Nat), n < fuel → ∀ c ∈ natToStrAux fuel n, ∃ k, k < 10 ∧ c = digitChar k
  | 0, n, h => by omega
  | fuel + 1, n, h => by
    intro c hc
    unfold natToStrAux at hc
    by_cases h10 : n < 10
    · rw [if_pos h10] at hc
      exact ⟨n, h10, (List.mem_singleton.mp hc).symm ▸ rfl⟩
    · rw [if_neg h10] at hc
      rcases List.mem_append.mp hc with h2 | h2
      · exact natToStrAux_chars fuel (n / 10) (by omega) c h2
      · exact ⟨n % 10, by omega, (List.mem_singleton.mp h2).symm ▸ rfl⟩

theorem natToStr_chars (n : Nat) :
    ∀ c ∈ natToStr n, ∃ k, k < 10 ∧ c = digitChar k :=
  natToStrAux_chars (n + 1) n (by omega)

theorem natOfDigits_append_singleton (a : Str) (c : Char) :
    natOfDigits (a ++ [c]) = natOfDigits a * 10 + (c.toNat - '0'.toNat) := by
  unfold natOfDigits
  rw [List.foldl_append]
  rfl

theorem natToStrAux_val :
    ∀ (fuel n : Nat), n < fuel → natOfDigits (natToStrAux fuel n) = n
  | 0, n, h => by omega
  | fuel + 1, n, h => by
    unfold natToStrAux
    by_cases h10 : n < 10
    · rw [if_pos h10]
      have hv := (digitChar_facts n h10).2.2.2.2
      show natOfDigits [digitChar n] = n
      unfold natOfDigits
      simp only [List.foldl_cons, List.foldl_nil]
      omega
    · rw [if_neg h10]
      rw [natOfDigits_append_singleton,
        natToStrAux_val fuel (n / 10) (by omega),
        (digitChar_facts (n % 10) (by omega)).2.2.2.2]
      omega

theorem natToStr_val (n : Nat) : natOfDigits (natToStr n) = n :=
  natToStrAux_val (n + 1) n (by omega)

theorem natToStr_len1 (n : Nat) (h : n < 10) : (natToStr n).length = 1 := by
  unfold natToStr natToStrAux
  rw [if_pos h]
  rfl

theorem natToStr_len2 (n : Nat) (h1 : 10 ≤ n) (h2 : n < 100) :
    (natToStr n).length = 2 := by
  unfold natToStr natToStrAux
  rw [if_neg (by omega)]
  have hd : n / 10 < 10 := by omega
  have : natToStrAux n (n / 10) = [digitChar (n / 10)] := by
    cases hn : n with
    | zero => omega
    | succ m =>
      unfold natToStrAux
      rw [if_pos (by omega)]
  rw [this]
  rfl

theorem pad2_facts (n : Nat) (h : n < 100) :
    (pad2 n).length = 2 ∧ (pad2 n) ≠ [] ∧ allDigits (pad2 n) = true ∧
    natOfDigits (pad2 n) = n ∧
    (∀ c ∈ pad2 n, ∃ k, k < 10 ∧ c = digitChar k) := by
  unfold pad2
  by_cases h10 : n < 10
  · rw [if_pos h10]
    refine ⟨by rw [List.length_cons, natToStr_len1 n h10], by simp, ?_, ?_, ?_⟩
    · unfold allDigits
      rw [List.all_cons]
      refine (Bool.and_eq_true _ _).mpr ⟨by decide, ?_⟩
      rw [List.all_eq_true]
      intro c hc
      obtain ⟨k, hk, hck⟩ := natToStr_chars n c hc
      rw [hck]
      exact (digitChar_facts k hk).1
    · show natOfDigits ('0' :: natToStr n) = n
      unfold natOfDigits
      rw [List.foldl_cons]
      have : (0 * 10 + ('0'.toNat - '0'.toNat)) = 0 := by decide
      rw [this]
      exact natToStr_val n
    · intro c hc
      rcases List.mem_cons.mp hc with h2 | h2
      · exact ⟨0, by omega, by rw [h2]; rfl⟩
      · exact natToStr_chars n c h2
  · rw [if_neg h10]
    exact ⟨natToStr_len2 n (by omega) h, by
        intro hcon
        have := natToStr_len2 n (by omega) h
        rw [hcon] at this
        simp at this, by
      unfold allDigits
      rw [List.all_eq_true]
      intro c hc
      obtain ⟨k, hk, hck⟩ := natToStr_chars n c hc
      rw [hck]
      exact (digitChar_facts k hk).1, natToStr_val n, natToStr_chars n⟩

theorem dropWhile_eq_self_of (p : Char → Bool) (s : Str)
    (h : ∀ c ∈ s, p c = false) : s.dropWhile p = s := by
  cases s with
  | nil => rfl
  | cons c t =>
    unfold List.dropWhile
    rw [h c (List.mem_cons_self c t)]

theorem pyStrip_eq_self (s : Str) (h : ∀ c ∈ s, c.isWhitespace = false) :
    pyStrip s = s := by
  unfold pyStrip
  rw [dropWhile_eq_self_of _ _ h,
    dropWhile_eq_self_of _ _ (fun c hc => h c (List.mem_reverse.mp hc)),
    List.reverse_reverse]

theorem pyUpper_eq_self (s : Str) (h : ∀ c ∈ s, c.toUpper = c) :
    pyUpper s = s :=
  map_id_of_mem h

theorem splitChar_cons (sep c : Char) (t : Str) :
    splitChar sep (c :: t) =
      if c = sep then [] :: splitChar sep t
      else
        match splitChar sep t with
        | [] => [[c]]
        | h :: t₂ => (c :: h) :: t₂ := rfl

theorem splitChar_no_sep (sep : Char) :
    ∀ (s : Str), (∀ c ∈ s, c ≠ sep) → splitChar sep s = [s]
  | [], _ => rfl
  | c :: t, h => by
    rw [splitChar_cons, if_neg (h c (List.mem_cons_self c t)),
      splitChar_no_sep sep t (fun c₂ hc₂ => h c₂ (List.mem_cons_of_mem c hc₂))]

theorem splitChar_append (sep : Char) (rest : Str) :
    ∀ (a : Str), (∀ c ∈ a, c ≠ sep) →
      splitChar sep (a ++ sep :: rest) = a :: splitChar sep rest
  | [], _ => by
    show splitChar sep (sep :: rest) = [] :: splitChar sep rest
    rw [splitChar_cons, if_pos rfl]
  | c :: t, h => by
    show splitChar sep (c :: (t ++ sep :: rest)) = (c :: t) :: splitChar sep rest
    rw [splitChar_cons, if_neg (h c (List.mem_cons_self c t)),
      splitChar_append sep rest t (fun c₂ hc₂ => h c₂ (List.mem_cons_of_mem c hc₂))]

theorem monthAbbrev_facts (m : Nat) (h1 : 1 ≤ m) (h2 : m ≤ 12) :
    (pyUpper (monthAbbrevs.getD (m - 1) [])).length = 3 ∧
    monthOfAbbrev (pyUpper (monthAbbrevs.getD (m - 1) [])) = some m ∧
    (∀ c ∈ pyUpper (monthAbbrevs.getD (m - 1) []),
      c ≠ '-' ∧ c.toUpper = c ∧ c.isWhitespace = false ∧ 'A' ≤ c ∧ c ≤ 'Z') := by
  interval_cases m <;> refine ⟨by decide, by decide, by decide⟩

theorem daysInMonth_le_31 (y m : Nat) : daysInMonth y m ≤ 31 := by
  unfold daysInMonth
  split_ifs <;> omega

theorem canonicalParse_strftime (d : DateV)
    (hm : 1 ≤ d.month ∧ d.month ≤ 12)
    (hd : 1 ≤ d.day ∧ d.day ≤ daysInMonth d.year d.month)
    (hy : 1950 ≤ d.year ∧ d.year ≤ 2049) :
    strftimeDdMmmYy d ≠ [] ∧
    pyStrip (strftimeDdMmmYy d) = strftimeDdMmmYy d ∧
    regexCanonical (strftimeDdMmmYy d) = true ∧
    canonicalParse (strftimeDdMmmYy d) = some d := by
  have hday100 : d.day < 100 := by
    have := daysInMonth_le_31 d.year d.month
    omega
  have hyy : d.year % 100 < 100 := Nat.mod_lt _ (by omega)
  have hpd := pad2_facts d.day hday100
  have hpy := pad2_facts (d.year % 100) hyy
  have hM := monthAbbrev_facts d.month hm.1 hm.2
  have hudef : strftimeDdMmmYy d =
      pad2 d.day ++ '-' :: (pyUpper (monthAbbrevs.getD (d.month - 1) []) ++
        '-' :: pad2 (d.year % 100)) := by
    unfold strftimeDdMmmYy
    simp [List.cons_append]
  have hchars : ∀ c ∈ strftimeDdMmmYy d, c.isWhitespace = false ∧ c.toUpper = c := by
    intro c hc
    rw [hudef] at hc
    rcases List.mem_append.mp hc with h2 | h2
    · obtain ⟨k, hk, hck⟩ := hpd.2.2.2.2 c h2
      rw [hck]
      exact ⟨(digitChar_facts k hk).2.1, (digitChar_facts k hk).2.2.2.1⟩
    · rcases List.mem_cons.mp h2 with h3 | h3
      · rw [h3]
        exact ⟨by decide, by decide⟩
      · rcases List.mem_append.mp h3 with h4 | h4
        · exact ⟨(hM.2.2 c h4).2.2.1, (hM.2.2 c h4).2.1⟩
        · rcases List.mem_cons.mp h4 with h5 | h5
          · rw [h5]
            exact ⟨by decide, by decide⟩
          · obtain ⟨k, hk, hck⟩ := hpy.2.2.2.2 c h5
            rw [hck]
            exact ⟨(digitChar_facts k hk).2.1, (digitChar_facts k hk).2.2.2.1⟩
  have hne : strftimeDdMmmYy d ≠ [] := by
    rw [hudef]
    intro hcon
    have := List.append_eq_nil.mp hcon
    exact hpd.2.1 this.1
  have hstrip : pyStrip (strftimeDdMmmYy d) = strftimeDdMmmYy d :=
    pyStrip_eq_self _ (fun c hc => (hchars c hc).1)
  have hupper : pyUpper (strftimeDdMmmYy d) = strftimeDdMmmYy d :=
    pyUpper_eq_self _ (fun c hc => (hchars c hc).2)
  have hsplit : splitChar '-' (pyUpper (strftimeDdMmmYy d)) =
      [pad2 d.day, pyUpper (monthAbbrevs.getD (d.month - 1) []),
       pad2 (d.year % 100)] := by
    rw [hupper, hudef]
    rw [splitChar_append '-' _ (pad2 d.day) (fun c hc => by
      obtain ⟨k, hk, hck⟩ := hpd.2.2.2.2 c hc
      rw [hck]
      exact (digitChar_facts k hk).2.2.1)]
    rw [splitChar_append '-' _ (pyUpper (monthAbbrevs.getD (d.month - 1) []))
      (fun c hc => (hM.2.2 c hc).1)]
    rw [splitChar_no_sep '-' (pad2 (d.year % 100)) (fun c hc => by
      obtain ⟨k, hk, hck⟩ := hpy.2.2.2.2 c hc
      rw [hck]
      exact (digitChar_facts k hk).2.2.1)]
  have hregex : regexCanonical (strftimeDdMmmYy d) = true := by
    unfold regexCanonical
    rw [hsplit]
    refine decide_eq_true ⟨hpd.2.1, by rw [hpd.1], hpd.2.2.1, hM.1, ?_,
      by rw [hpy.1], hpy.2.2.1⟩
    rw [List.all_eq_true]
    intro c hc
    exact decide_eq_true ⟨(hM.2.2 c hc).2.2.2.1, (hM.2.2 c hc).2.2.2.2⟩
  have hids : parseIntDigits (pad2 d.day) = some d.day := by
    unfold parseIntDigits
    rw [if_pos ⟨hpd.2.1, hpd.2.2.1⟩, hpd.2.2.2.1]
  have hiys : parseIntDigits (pad2 (d.year % 100)) = some (d.year % 100) := by
    unfold parseIntDigits
    rw [if_pos ⟨hpy.2.1, hpy.2.2.1⟩, hpy.2.2.2.1]
  have hparse : canonicalParse (strftimeDdMmmYy d) = some d := by
    unfold canonicalParse
    rw [hsplit]
    show (match parseIntDigits (pad2 d.day),
        parseIntDigits (pad2 (d.year % 100)) with
      | some d2, some yy =>
        let y := if yy < 50 then 2000 + yy else 1900 + yy
        match monthOfAbbrev (pyUpper (monthAbbrevs.getD (d.month - 1) [])) with
        | some m => if 1 ≤ d2 ∧ d2 ≤ daysInMonth y m then some ⟨y, m, d2⟩ else none
        | none => none
      | _, _ => none) = some d
    rw [hids, hiys]
    show (let y := if d.year % 100 < 50 then 2000 + d.year % 100
            else 1900 + d.year % 100
      match monthOfAbbrev (pyUpper (monthAbbrevs.getD (d.month - 1) [])) with
      | some m => if 1 ≤ d.day ∧ d.day ≤ daysInMonth y m then some ⟨y, m, d.day⟩
          else none
      | none => none) = some d
    have hyr : (if d.year % 100 < 50 then 2000 + d.year % 100
        else 1900 + d.year % 100) = d.year := by
      split_ifs <;> omega
    simp only [hyr, hM.2.1]
    rw [if_pos hd]
  exact ⟨hne, hstrip, hregex, hparse⟩

/-- C8: a value already in canonical `DD-MMM-YY` form — zero-padded day,
uppercase month abbreviation, two-digit year read with the source's 1950/2049
pivot — that denotes a valid calendar date not in the future yields a result
with no correction and no error (warnings are permitted) from both date
validators. -/
theorem date_validators_canonical_roundtrip (env : Env)
    (rowData : Option RowCtx) (d : DateV)
    (hm : 1 ≤ d.month ∧ d.month ≤ 12)
    (hd : 1 ≤ d.day ∧ d.day ≤ daysInMonth d.year d.month)
    (hy : 1950 ≤ d.year ∧ d.year ≤ 2049)
    (hfut : d.encode ≤ env.today.encode) :
    ((FirstDateValidator.validate env (.str (strftimeDdMmmYy d)) rowData).isValid = true ∧
     (FirstDateValidator.validate env (.str (strftimeDdMmmYy d)) rowData).errors = [] ∧
     (FirstDateValidator.validate env (.str (strftimeDdMmmYy d)) rowData).correction = none) ∧
    ((LastDateValidator.validate env (.str (strftimeDdMmmYy d)) rowData).isValid = true ∧
     (LastDateValidator.validate env (.str (strftimeDdMmmYy d)) rowData).errors = [] ∧
     (LastDateValidator.validate env (.str (strftimeDdMmmYy d)) rowData).correction = none) := by
  have hc := canonicalParse_strftime d hm hd hy
  have hbl : isBlankCell (.str (strftimeDdMmmYy d)) = false := by
    simp [isBlankCell, hc.1]
  have hnofut : ¬ env.today.encode < d.encode := by omega
  have hcorr : (pyStrOf (CellValue.str (strftimeDdMmmYy d)) ≠ strftimeDdMmmYy d) = False := by
    simp [pyStrOf]
  have hfeq : (env.today.encode < d.encode) = False := by simp [hnofut]
  constructor
  · unfold FirstDateValidator.validate
    rw [hbl]
    simp only [Bool.false_eq_true, if_false]
    rw [hc.2.1]
    simp only [hc.2.2.1, if_true]
    rw [hc.2.2.2]
    simp only [hcorr, hfeq, if_false]
    split_ifs <;> simp
  · unfold LastDateValidator.validate
    rw [hbl]
    simp only [Bool.false_eq_true, if_false]
    rw [hc.2.1]
    simp only [hc.2.2.1, if_true]
    rw [hc.2.2.2]
    simp only [hcorr, hfeq, if_false]
    split_ifs <;> simp

/-- Witness for C8: 15-JUN-2023 with today = 2025-06-01. -/
theorem date_validators_canonical_roundtrip_witness :
    strftimeDdMmmYy ⟨2023, 6, 15⟩ = "15-JUN-23".data ∧
    (FirstDateValidator.validate { today := ⟨2025, 6, 1⟩ }
      (.str "15-JUN-23".data) none).correction = none ∧
    (LastDateValidator.validate { today := ⟨2025, 6, 1⟩ }
      (.str "15-JUN-23".data) none).errors = [] := by
  have h := date_validators_canonical_roundtrip { today := ⟨2025, 6, 1⟩ } none
    ⟨2023, 6, 15⟩ (by decide) (by decide) (by decide) (by decide)
  have hfmt : strftimeDdMmmYy ⟨2023, 6, 15⟩ = "15-JUN-23".data := by decide
  rw [hfmt] at h
  exact ⟨hfmt, h.1.2.2, h.2.2.1⟩


theorem absorbResult_corrections (acc : RowResult) (c : Str)
    (r : ValidationResult) :
    (absorbResult acc c r).corrections = acc.corrections ++
      (match r.correction with
       | some v => [(c, v)]
       | none => []) := by
  unfold absorbResult
  repeat' split
  all_goals simp_all

theorem runValidatorLoop_corrections_mono :
    ∀ (pairs : List (Str × ValidatorStep)) (cells : List CellValue) (i : Nat)
      (ctx : RowCtx) (acc : RowResult),
      ∃ extra, (runValidatorLoop pairs cells i ctx acc).corrections =
        acc.corrections ++ extra
  | [], _, _, _, acc => ⟨[], by simp [runValidatorLoop]⟩
  | (c, f) :: rest, cells, i, ctx, acc => by
    unfold runValidatorLoop
    cases hstep : f (cells.getD i .blank) ctx with
    | error e => exact ⟨[], by simp⟩
    | ok p =>
      obtain ⟨r, ctx₂⟩ := p
      obtain ⟨extra, hex⟩ := runValidatorLoop_corrections_mono rest cells (i + 1)
        ctx₂ (absorbResult acc c r)
      rw [hex, absorbResult_corrections]
      exact ⟨_, by rw [List.append_assoc]⟩

theorem lookupAssoc_append_left {α : Type} (l₁ l₂ : List (Str × α)) (k : Str)
    (v : α) (h : lookupAssoc l₁ k = some v) :
    lookupAssoc (l₁ ++ l₂) k = some v := by
  induction l₁ with
  | nil => simp [lookupAssoc] at h
  | cons p rest ih =>
    obtain ⟨k₂, v₂⟩ := p
    rw [List.cons_append]
    unfold lookupAssoc at h ⊢
    by_cases hk : k₂ = k
    · rw [if_pos hk] at h ⊢
      exact h
    · rw [if_neg hk] at h ⊢
      exact ih h

theorem lookupAssoc_isSome_ne_nil {α : Type} (l : List (Str × α)) (k : Str)
    (v : α) (h : lookupAssoc l k = some v) : l ≠ [] := by
  intro hcon
  rw [hcon] at h
  simp [lookupAssoc] at h

theorem flagRowAt_corrections (idx : Nat) (msg : Str) :
    ∀ (res : List RowResult),
      (flagRowAt res idx msg).map RowResult.corrections =
        res.map RowResult.corrections := by
  intro res
  rw [flagRowAt_eq_updateFirst]
  induction res with
  | nil => rfl
  | cons r rest ih =>
    unfold updateFirst
    by_cases h : r.rowIndex = idx
    · simp [h, flagResult]
    · simp only [h, if_false, List.map_cons]
      rw [ih]

theorem foldl_preserves_corrections {α : Type}
    (g : List RowResult → α → List RowResult)
    (hg : ∀ res a, (g res a).map RowResult.corrections =
      res.map RowResult.corrections) :
    ∀ (l : List α) (res : List RowResult),
      ((l.foldl g res).map RowResult.corrections) =
        res.map RowResult.corrections
  | [], res => rfl
  | a :: l, res => by
    rw [List.foldl_cons, foldl_preserves_corrections g hg l (g res a), hg]

theorem foldFlag_corrections (msg : Str) (e : Nat) (srs : List Nat)
    (res : List RowResult) :
    ((srs.foldl (fun res idx =>
        if idx ≠ e then flagRowAt res idx msg else res) res).map
      RowResult.corrections) = res.map RowResult.corrections := by
  apply foldl_preserves_corrections
  intro res idx
  by_cases h : idx ≠ e
  · rw [if_pos h, flagRowAt_corrections]
  · rw [if_neg h]

theorem processStateGroup_corrections (df : List RawRow) (res : List RowResult)
    (L : List Nat) :
    (processStateGroup df res L).map RowResult.corrections =
      res.map RowResult.corrections := by
  simp only [processStateGroup]
  split
  · exact foldFlag_corrections _ _ _ _
  · rfl

theorem processCountyGroup_corrections (df : List RawRow) (res : List RowResult)
    (L : List Nat) :
    (processCountyGroup df res L).map RowResult.corrections =
      res.map RowResult.corrections := by
  simp only [processCountyGroup]
  apply foldl_preserves_corrections
  intro res cg
  split
  · exact foldFlag_corrections _ _ _ _
  · rfl

theorem validateRecordUniqueness_corrections (df : List RawRow)
    (results : List RowResult) :
    (validateRecordUniqueness df results).map RowResult.corrections =
      results.map RowResult.corrections := by
  simp only [validateRecordUniqueness, validateCountyRecordsWith,
    validateStateRecordsWith]
  exact (foldl_preserves_corrections (fun res g => processCountyGroup df res g.2)
      (fun res g => processCountyGroup_corrections df res g.2)
      (groupBySpecies df) _).trans
    (foldl_preserves_corrections (fun res g => processStateGroup df res g.2)
      (fun res g => processStateGroup_corrections df res g.2)
      (groupBySpecies df) results)

/-- C10: a non-blank Country cell always receives a correction — the
uppercased, stripped value, classified as a normalization, even when equal to
the input — so the row's corrections map always carries a `Country` entry and
the row can never satisfy the summary's `passed` predicate (valid and
correction-free), including after the QA record-uniqueness pass, which never
removes corrections. -/
theorem country_always_corrected (env : Env) (idx : Nat) (row : RawRow)
    (hnb : isBlankCell row.country = false) :
    (CountryValidator.validate row.country (some { row := row })).correction =
      some (.str (pyStrip (pyUpper (pyStrOf row.country)))) ∧
    (CountryValidator.validate row.country (some { row := row })).correctionType =
      some CorrType.normalization ∧
    lookupAssoc (validateRow env idx row).corrections "Country".data =
      some (.str (pyStrip (pyUpper (pyStrOf row.country)))) ∧
    rowPassed (validateRow env idx row) = false ∧
    (∀ (df : List RawRow) (results : List RowResult) (j : Nat),
      results.get? j = some (validateRow env idx row) →
      ∃ r₂, (validateRecordUniqueness df results).get? j = some r₂ ∧
        rowPassed r₂ = false) := by
  have hval : (CountryValidator.validate row.country (some { row := row })).correction =
        some (.str (pyStrip (pyUpper (pyStrOf row.country)))) ∧
      (CountryValidator.validate row.country (some { row := row })).correctionType =
        some CorrType.normalization := by
    unfold CountryValidator.validate
    rw [hnb]
    simp only [Bool.false_eq_true, if_false]
    exact ⟨trivial, trivial⟩
  have htwo : validateRow env idx row =
      runValidatorLoop
        ((COLUMN_NAMES.zip ((validatorObjs env).map ValidatorObj.step)).drop 2)
        (rawCells row) 2 { row := row }
        (absorbResult
          (absorbResult { rowIndex := idx } "Zone".data
            (ZoneValidator.validate row.zone (some { row := row })))
          "Country".data
          (CountryValidator.validate row.country (some { row := row }))) := rfl
  have hacc : lookupAssoc (absorbResult
      (absorbResult { rowIndex := idx } "Zone".data
        (ZoneValidator.validate row.zone (some { row := row })))
      "Country".data
      (CountryValidator.validate row.country (some { row := row }))).corrections
      "Country".data = some (.str (pyStrip (pyUpper (pyStrOf row.country)))) := by
    rw [absorbResult_corrections, absorbResult_corrections, hval.1]
    cases hz : (ZoneValidator.validate row.zone (some { row := row })).correction <;>
      simp [lookupAssoc]
  have hlook : lookupAssoc (validateRow env idx row).corrections "Country".data =
      some (.str (pyStrip (pyUpper (pyStrOf row.country)))) := by
    rw [htwo]
    obtain ⟨extra, hex⟩ := runValidatorLoop_corrections_mono
      ((COLUMN_NAMES.zip ((validatorObjs env).map ValidatorObj.step)).drop 2)
      (rawCells row) 2 { row := row } _
    rw [hex]
    exact lookupAssoc_append_left _ _ _ _ hacc
  have hne : (validateRow env idx row).corrections ≠ [] :=
    lookupAssoc_isSome_ne_nil _ _ _ hlook
  refine ⟨hval.1, hval.2, hlook, ?_, ?_⟩
  · unfold rowPassed
    simp [hne]
  · intro df results j hget
    have hmap := validateRecordUniqueness_corrections df results
    have hlen : (validateRecordUniqueness df results).length = results.length := by
      have := congrArg List.length hmap
      simpa using this
    have hjlt : j < results.length := by
      by_contra hcon
      rw [List.get?_eq_none.mpr (by omega)] at hget
      exact Option.noConfusion hget
    obtain ⟨r₂, hr₂⟩ : ∃ r₂, (validateRecordUniqueness df results).get? j = some r₂ := by
      have : j < (validateRecordUniqueness df results).length := by omega
      rcases hq : (validateRecordUniqueness df results).get? j with _ | r₂
      · rw [List.get?_eq_none] at hq
        omega
      · exact ⟨r₂, rfl⟩
    have hcorr : r₂.corrections = (validateRow env idx row).corrections := by
      have h1 := congrArg (fun l => l.get? j) hmap
      simp only [List.get?_map] at h1
      rw [hr₂, hget] at h1
      simpa using h1
    refine ⟨r₂, hr₂, ?_⟩
    unfold rowPassed
    rw [hcorr]
    simp [hne]

/-- Witness for C10: a lowercase `usa` cell is corrected to `USA` and the row
is not counted as passed. -/
theorem country_always_corrected_witness :
    isBlankCell rowC10.country = false ∧
    lookupAssoc (validateRow envC10 0 rowC10).corrections "Country".data =
      some (.str "USA".data) ∧
    rowPassed (validateRow envC10 0 rowC10) = false := by
  have h := country_always_corrected envC10 0 rowC10 (by decide)
  have hv : pyStrip (pyUpper (pyStrOf rowC10.country)) = "USA".data := by decide
  rw [hv] at h
  exact ⟨by decide, h.2.2.1, h.2.2.2.1⟩


theorem runValidatorLoop_step_ok (c : Str) (f : ValidatorStep)
    (rest : List (Str × ValidatorStep)) (cells : List CellValue) (i : Nat)
    (ctx ctx₂ : RowCtx) (acc : RowResult) (r : ValidationResult)
    (h : f (cells.getD i .blank) ctx = .ok (r, ctx₂)) :
    runValidatorLoop ((c, f) :: rest) cells i ctx acc =
      runValidatorLoop rest cells (i + 1) ctx₂ (absorbResult acc c r) := by
  conv_lhs => rw [runValidatorLoop]
  rw [h]

theorem runValidatorLoop_single_ok (c : Str) (f : ValidatorStep)
    (cells : List CellValue) (i : Nat) (ctx ctx₂ : RowCtx) (acc : RowResult)
    (r : ValidationResult) (h : f (cells.getD i .blank) ctx = .ok (r, ctx₂)) :
    runValidatorLoop [(c, f)] cells i ctx acc = absorbResult acc c r := by
  conv_lhs => rw [runValidatorLoop]
  rw [h]
  rfl

theorem speciesValidate_snd (env : Env) (oracle : InatOracle)
    (value : CellValue) (ctx : RowCtx) (resp : SpeciesResp)
    (hnb : isBlankCell value = false) (hor : env.inat = some oracle)
    (hg : cellTruthy ctx.row.genus = true)
    (hchk : oracle.checkSpecies (some ctx.row.genus)
      (some (.str (pyLower (pyStrip (pyStrOf value))))) (some ctx.row.family) =
      .ok resp)
    (hvalid : resp.valid = true) :
    (SpeciesValidator.validate env value (some ctx)).2 =
      some { ctx with inatTaxonId := resp.taxonId } := by
  simp only [SpeciesValidator.validate, hnb, hor, Bool.false_eq_true, if_false,
    hg, if_true, hchk, hvalid]
  split_ifs <;> rfl

theorem countyValidate_snd (env : Env) (value : CellValue) (ctx : RowCtx) :
    ∃ c₂ : RowCtx, (CountyValidator.validate env value (some ctx)).2 = some c₂ ∧
      c₂.inatTaxonId = ctx.inatTaxonId ∧ c₂.row = ctx.row := by
  cases henv : env.inat with
  | none =>
    simp only [CountyValidator.validate, henv]
    repeat' split
    all_goals exact ⟨_, rfl, rfl, rfl⟩
  | some oracle =>
    simp only [CountyValidator.validate, henv]
    repeat' split
    all_goals exact ⟨_, rfl, rfl, rfl⟩

/-- C7: `validate_row` runs the sixteen validators in the fixed column order
Zone, Country, State, Family, Genus, Species, Sub-species, County,
State Record, County Record, Specific Location, First Date, Last Date, Name,
Comments, Year, pairing validator `i` with column `i`'s cell; when the Species
validator resolves an iNaturalist taxon id, it is written into the shared row
context before the State Record and County Record validators run, so both
observe it. -/
theorem validate_row_order_and_context
    (env : Env) (oracle : InatOracle) (idx : Nat) (row : RawRow)
    (sr : ValidationResult) (resp : SpeciesResp) (t : Nat)
    (hor : env.inat = some oracle)
    (hstate : StateValidator.validate row.state (some { row := row }) =
      Except.ok sr)
    (hsp : isBlankCell row.species = false)
    (hg : cellTruthy row.genus = true)
    (hchk : oracle.checkSpecies (some row.genus)
      (some (.str (pyLower (pyStrip (pyStrOf row.species)))))
      (some row.family) = .ok resp)
    (hvalid : resp.valid = true)
    (htax : resp.taxonId = some t) :
    (validatorObjs env).map ValidatorObj.fieldName = COLUMN_NAMES ∧
    COLUMN_NAMES.length = 16 ∧
    ∃ ctx₉ : RowCtx,
      ctx₉.inatTaxonId = some t ∧ ctx₉.row = row ∧
      (validateRow env idx row).fieldResults = COLUMN_NAMES.zip
        [ZoneValidator.validate row.zone (some { row := row }),
         CountryValidator.validate row.country (some { row := row }),
         sr,
         FamilyValidator.validate env row.family (some { row := row }),
         GenusValidator.validate row.genus (some { row := row }),
         (SpeciesValidator.validate env row.species (some { row := row })).1,
         SubspeciesValidator.validate env row.subspecies
           (some { row := row, inatTaxonId := some t }),
         (CountyValidator.validate env row.county
           (some { row := row, inatTaxonId := some t })).1,
         StateRecordValidator.validate env row.stateRecord (some ctx₉),
         CountyRecordValidator.validate env row.countyRecord (some ctx₉),
         LocationValidator.validate env row.specificLocation (some ctx₉),
         FirstDateValidator.validate env row.firstDate (some ctx₉),
         LastDateValidator.validate env row.lastDate (some ctx₉),
         NameValidator.validate row.name (some ctx₉),
         CommentValidator.validate env row.comments (some ctx₉),
         YearValidator.validate env row.year (some ctx₉)] := by
  refine ⟨rfl, rfl, ?_⟩
  have hsnd := speciesValidate_snd env oracle row.species { row := row } resp
    hsp hor hg hchk hvalid
  rw [htax] at hsnd
  have hspair : SpeciesValidator.validate env row.species (some { row := row }) =
      ((SpeciesValidator.validate env row.species (some { row := row })).1,
       some { row := row, inatTaxonId := some t }) := Prod.ext rfl hsnd
  obtain ⟨ctx₉, hc2, htax9, hrow9⟩ := countyValidate_snd env row.county
    { row := row, inatTaxonId := some t }
  have hcpair : CountyValidator.validate env row.county
      (some { row := row, inatTaxonId := some t }) =
      ((CountyValidator.validate env row.county
        (some { row := row, inatTaxonId := some t })).1, some ctx₉) :=
    Prod.ext rfl hc2
  refine ⟨ctx₉, by rw [htax9], by rw [hrow9], ?_⟩
  have e0 : validateRow env idx row =
      runValidatorLoop
        (COLUMN_NAMES.zip ((validatorObjs env).map ValidatorObj.step))
        (rawCells row) 0 { row := row } { rowIndex := idx } := rfl
  have e1 := e0.trans (runValidatorLoop_step_ok _ _ _ _ _ _ _ _ _ rfl)
  have e2 := e1.trans (runValidatorLoop_step_ok _ _ _ _ _ _ _ _ _ rfl)
  have e3 := e2.trans (runValidatorLoop_step_ok _ _ _ _ _ _ _ _ _
    (by show (StateValidator.validate row.state
          (some ({ row := row } : RowCtx))).map
          (fun r => (r, ({ row := row } : RowCtx))) =
        Except.ok (sr, ({ row := row } : RowCtx))
        rw [hstate]
        rfl))
  have e4 := e3.trans (runValidatorLoop_step_ok _ _ _ _ _ _ _ _ _ rfl)
  have e5 := e4.trans (runValidatorLoop_step_ok _ _ _ _ _ _ _ _ _ rfl)
  have e6 := e5.trans (runValidatorLoop_step_ok _ _ _ _ _ _ _ _ _
    (by show (match SpeciesValidator.validate env row.species
            (some ({ row := row } : RowCtx)) with
          | (r, some c₂) => Except.ok (r, c₂)
          | (r, none) => Except.ok (r, ({ row := row } : RowCtx))) =
        Except.ok ((SpeciesValidator.validate env row.species
            (some ({ row := row } : RowCtx))).1,
          ({ row := row, inatTaxonId := some t } : RowCtx))
        rw [hspair]))
  have e7 := e6.trans (runValidatorLoop_step_ok _ _ _ _ _ _ _ _ _ rfl)
  have e8 := e7.trans (runValidatorLoop_step_ok _ _ _ _ _ _ _ _ _
    (by show (match CountyValidator.validate env row.county
            (some ({ row := row, inatTaxonId := some t } : RowCtx)) with
          | (r, some c₂) => Except.ok (r, c₂)
          | (r, none) =>
            Except.ok (r, ({ row := row, inatTaxonId := some t } : RowCtx))) =
        Except.ok ((CountyValidator.validate env row.county
            (some ({ row := row, inatTaxonId := some t } : RowCtx))).1, ctx₉)
        rw [hcpair]))
  have e9 := e8.trans (runValidatorLoop_step_ok _ _ _ _ _ _ _ _ _ rfl)
  have e10 := e9.trans (runValidatorLoop_step_ok _ _ _ _ _ _ _ _ _ rfl)
  have e11 := e10.trans (runValidatorLoop_step_ok _ _ _ _ _ _ _ _ _ rfl)
  have e12 := e11.trans (runValidatorLoop_step_ok _ _ _ _ _ _ _ _ _ rfl)
  have e13 := e12.trans (runValidatorLoop_step_ok _ _ _ _ _ _ _ _ _ rfl)
  have e14 := e13.trans (runValidatorLoop_step_ok _ _ _ _ _ _ _ _ _ rfl)
  have e15 := e14.trans (runValidatorLoop_step_ok _ _ _ _ _ _ _ _ _ rfl)
  have e16 := e15.trans (runValidatorLoop_single_ok _ _ _ _ _ _ _ _ rfl)
  rw [e16]
  simp only [absorbResult_fieldResults]
  rfl

/-- Witness for C7: on a concrete row with genus Pieris and species rapae, the
oracle resolves taxon id 777 and both record validators receive a context
carrying it. -/
theorem validate_row_order_and_context_witness :
    (validatorObjs envC7).map ValidatorObj.fieldName = COLUMN_NAMES ∧
    COLUMN_NAMES.length = 16 ∧
    ∃ ctx₉ : RowCtx,
      ctx₉.inatTaxonId = some 777 ∧ ctx₉.row = rowC7 ∧
      (validateRow envC7 0 rowC7).fieldResults = COLUMN_NAMES.zip
        [ZoneValidator.validate rowC7.zone (some { row := rowC7 }),
         CountryValidator.validate rowC7.country (some { row := rowC7 }),
         srC7,
         FamilyValidator.validate envC7 rowC7.family (some { row := rowC7 }),
         GenusValidator.validate rowC7.genus (some { row := rowC7 }),
         (SpeciesValidator.validate envC7 rowC7.species
           (some { row := rowC7 })).1,
         SubspeciesValidator.validate envC7 rowC7.subspecies
           (some { row := rowC7, inatTaxonId := some 777 }),
         (CountyValidator.validate envC7 rowC7.county
           (some { row := rowC7, inatTaxonId := some 777 })).1,
         StateRecordValidator.validate envC7 rowC7.stateRecord (some ctx₉),
         CountyRecordValidator.validate envC7 rowC7.countyRecord (some ctx₉),
         LocationValidator.validate envC7 rowC7.specificLocation (some ctx₉),
         FirstDateValidator.validate envC7 rowC7.firstDate (some ctx₉),
         LastDateValidator.validate envC7 rowC7.lastDate (some ctx₉),
         NameValidator.validate rowC7.name (some ctx₉),
         CommentValidator.validate envC7 rowC7.comments (some ctx₉),
         YearValidator.validate envC7 rowC7.year (some ctx₉)] :=
  validate_row_order_and_context envC7 oracleC7 0 rowC7 srC7 respC7 777 rfl
    rfl (by decide) (by decide) rfl rfl rfl


set_option maxRecDepth 4000 in
theorem zone_invariant (v : CellValue) (ctx : Option RowCtx) :
    fieldInvariant (ZoneValidator.validate v ctx) := by
  simp only [ZoneValidator.validate]
  repeat' split
  all_goals simp [fieldInvariant]

set_option maxRecDepth 4000 in
theorem country_invariant (v : CellValue) (ctx : Option RowCtx) :
    fieldInvariant (CountryValidator.validate v ctx) := by
  simp only [CountryValidator.validate]
  repeat' split
  all_goals try dsimp only
  all_goals try simp [fieldInvariant]
  all_goals try simp_all [fieldInvariant]

set_option maxRecDepth 4000 in
theorem state_invariant (v : CellValue) (ctx : Option RowCtx)
    (r : ValidationResult) (h : StateValidator.validate v ctx = Except.ok r) :
    fieldInvariant r := by
  simp only [StateValidator.validate, stateChecks] at h
  repeat' split at h
  all_goals first
    | (injection h with h2; subst h2; first
        | simp [fieldInvariant]
        | simp_all [fieldInvariant])
    | simp at h

set_option maxRecDepth 4000 in
theorem family_invariant (env : Env) (v : CellValue) (ctx : Option RowCtx) :
    fieldInvariant (FamilyValidator.validate env v ctx) := by
  simp only [FamilyValidator.validate]
  repeat' split
  all_goals try dsimp only
  all_goals try simp [fieldInvariant]
  all_goals try simp_all [fieldInvariant]

set_option maxRecDepth 4000 in
theorem genus_invariant (v : CellValue) (ctx : Option RowCtx) :
    fieldInvariant (GenusValidator.validate v ctx) := by
  simp only [GenusValidator.validate]
  repeat' split
  all_goals try dsimp only
  all_goals try simp [fieldInvariant]
  all_goals try simp_all [fieldInvariant]

set_option maxRecDepth 4000 in
theorem species_invariant (env : Env) (v : CellValue) (ctx : Option RowCtx) :
    fieldInvariant (SpeciesValidator.validate env v ctx).1 := by
  simp only [SpeciesValidator.validate]
  repeat' split
  all_goals try dsimp only
  all_goals try simp [fieldInvariant]
  all_goals try simp_all [fieldInvariant]

set_option maxRecDepth 4000 in
theorem subspecies_invariant (env : Env) (v : CellValue) (ctx : Option RowCtx) :
    fieldInvariant (SubspeciesValidator.validate env v ctx) := by
  simp only [SubspeciesValidator.validate]
  repeat' split
  all_goals try dsimp only
  all_goals try simp [fieldInvariant]
  all_goals try simp_all [fieldInvariant]

set_option maxRecDepth 4000 in
theorem county_invariant (env : Env) (v : CellValue) (ctx : Option RowCtx) :
    fieldInvariant (CountyValidator.validate env v ctx).1 := by
  simp only [CountyValidator.validate]
  repeat' split
  all_goals try dsimp only
  all_goals try simp [fieldInvariant]
  all_goals try simp_all [fieldInvariant]


theorem defaultRecordN_invariant (r : ValidationResult) (vU : Str)
    (h : fieldInvariant r) : fieldInvariant (defaultRecordN r vU) := by
  unfold defaultRecordN
  split
  · exact ⟨h.1, by simp⟩
  · exact h

theorem stateRecordOracleStage_invariant (oracle : InatOracle) (t : Nat)
    (ctx : RowCtx) (vU : Str) (r0 : ValidationResult)
    (h : fieldInvariant r0) :
    fieldInvariant (stateRecordOracleStage oracle t ctx vU r0) := by
  simp only [stateRecordOracleStage]
  repeat' split
  all_goals first
    | exact h
    | exact defaultRecordN_invariant _ _ ⟨h.1, h.2⟩
    | (try dsimp only
       refine ⟨fun hv => ?_, fun hc => ?_⟩ <;> simp_all [fieldInvariant])

theorem countyRecordOracleStage_invariant (oracle : InatOracle) (t p : Nat)
    (ctx : RowCtx) (vU : Str) (r0 : ValidationResult)
    (h : fieldInvariant r0) :
    fieldInvariant (countyRecordOracleStage oracle t p ctx vU r0) := by
  simp only [countyRecordOracleStage]
  repeat' split
  all_goals first
    | exact h
    | exact defaultRecordN_invariant _ _ ⟨h.1, h.2⟩
    | (try dsimp only
       refine ⟨fun hv => ?_, fun hc => ?_⟩ <;> simp_all [fieldInvariant])

set_option maxRecDepth 4000 in
theorem stateRecord_invariant (env : Env) (v : CellValue) (ctx : Option RowCtx) :
    fieldInvariant (StateRecordValidator.validate env v ctx) := by
  simp only [StateRecordValidator.validate]
  repeat' split
  all_goals try dsimp only
  all_goals try simp [fieldInvariant]
  all_goals try simp_all [fieldInvariant]
  all_goals first
    | exact stateRecordOracleStage_invariant _ _ _ _ _
        (by first | simp [fieldInvariant] | simp_all [fieldInvariant])
    | exact countyRecordOracleStage_invariant _ _ _ _ _ _
        (by first | simp [fieldInvariant] | simp_all [fieldInvariant])
    | exact defaultRecordN_invariant _ _
        (by first | simp [fieldInvariant] | simp_all [fieldInvariant])

set_option maxRecDepth 4000 in
theorem countyRecord_invariant (env : Env) (v : CellValue) (ctx : Option RowCtx) :
    fieldInvariant (CountyRecordValidator.validate env v ctx) := by
  simp only [CountyRecordValidator.validate]
  repeat' split
  all_goals try dsimp only
  all_goals try simp [fieldInvariant]
  all_goals try simp_all [fieldInvariant]
  all_goals first
    | exact stateRecordOracleStage_invariant _ _ _ _ _
        (by first | simp [fieldInvariant] | simp_all [fieldInvariant])
    | exact countyRecordOracleStage_invariant _ _ _ _ _ _
        (by first | simp [fieldInvariant] | simp_all [fieldInvariant])
    | exact defaultRecordN_invariant _ _
        (by first | simp [fieldInvariant] | simp_all [fieldInvariant])

set_option maxRecDepth 4000 in
theorem location_invariant (env : Env) (v : CellValue) (ctx : Option RowCtx) :
    fieldInvariant (LocationValidator.validate env v ctx) := by
  simp only [LocationValidator.validate]
  repeat' split
  all_goals try dsimp only
  all_goals try simp [fieldInvariant]
  all_goals try simp_all [fieldInvariant]

set_option maxRecDepth 4000 in
theorem firstDate_invariant (env : Env) (v : CellValue) (ctx : Option RowCtx) :
    fieldInvariant (FirstDateValidator.validate env v ctx) := by
  simp only [FirstDateValidator.validate]
  repeat' split
  all_goals try dsimp only
  all_goals try simp [fieldInvariant]
  all_goals try simp_all [fieldInvariant]
  all_goals rename_i heq
  all_goals repeat' split at heq
  all_goals first
    | (injection heq with h2; subst h2; simp [fieldInvariant])
    | simp at heq

set_option maxRecDepth 4000 in
theorem lastDate_invariant (env : Env) (v : CellValue) (ctx : Option RowCtx) :
    fieldInvariant (LastDateValidator.validate env v ctx) := by
  simp only [LastDateValidator.validate]
  repeat' split
  all_goals try dsimp only
  all_goals try simp [fieldInvariant]
  all_goals try simp_all [fieldInvariant]
  all_goals rename_i heq
  all_goals repeat' split at heq
  all_goals first
    | (injection heq with h2; subst h2; simp [fieldInvariant])
    | simp at heq

set_option maxRecDepth 4000 in
theorem name_invariant (v : CellValue) (ctx : Option RowCtx) :
    fieldInvariant (NameValidator.validate v ctx) := by
  simp only [NameValidator.validate]
  repeat' split
  all_goals try dsimp only
  all_goals try simp [fieldInvariant]
  all_goals try simp_all [fieldInvariant]

set_option maxRecDepth 4000 in
theorem comment_invariant (env : Env) (v : CellValue) (ctx : Option RowCtx) :
    fieldInvariant (CommentValidator.validate env v ctx) := by
  simp only [CommentValidator.validate]
  repeat' split
  all_goals try dsimp only
  all_goals try simp [fieldInvariant]
  all_goals try simp_all [fieldInvariant]

set_option maxRecDepth 4000 in
theorem year_invariant (env : Env) (v : CellValue) (ctx : Option RowCtx) :
    fieldInvariant (YearValidator.validate env v ctx) := by
  simp only [YearValidator.validate]
  repeat' split
  all_goals try dsimp only
  all_goals try simp [fieldInvariant]
  all_goals try simp_all [fieldInvariant]

theorem absorbResult_rowInvariant (acc : RowResult) (c : Str)
    (r : ValidationResult) (hacc : rowInvariant acc) (hr : fieldInvariant r) :
    rowInvariant (absorbResult acc c r) := by
  unfold rowInvariant at *
  unfold absorbResult
  repeat' split
  all_goals try dsimp only
  all_goals intro hv
  all_goals simp_all [fieldInvariant]

theorem runValidatorLoop_rowInvariant :
    ∀ (pairs : List (Str × ValidatorStep)) (cells : List CellValue) (i : Nat)
      (ctx : RowCtx) (acc : RowResult),
      rowInvariant acc →
      (∀ p ∈ pairs, ∀ v c r c₂, p.2 v c = .ok (r, c₂) → fieldInvariant r) →
      rowInvariant (runValidatorLoop pairs cells i ctx acc)
  | [], _, _, _, _, hacc, _ => hacc
  | (c, f) :: rest, cells, i, ctx, acc, hacc, hsteps => by
    unfold runValidatorLoop
    cases hstep : f (cells.getD i .blank) ctx with
    | error e =>
      intro hv
      simp
    | ok p =>
      obtain ⟨r, ctx₂⟩ := p
      exact runValidatorLoop_rowInvariant rest cells (i + 1) ctx₂ _
        (absorbResult_rowInvariant acc c r hacc
          (hsteps (c, f) (List.mem_cons_self _ _) _ _ _ _ hstep))
        (fun p hp => hsteps p (List.mem_cons_of_mem _ hp))

set_option maxHeartbeats 2000000 in
theorem validateRow_rowInvariant (env : Env) (idx : Nat) (row : RawRow) :
    rowInvariant (validateRow env idx row) := by
  apply runValidatorLoop_rowInvariant
  · intro hv
    simp at hv
  · intro p hp v c r c₂ hstep
    fin_cases hp
    all_goals simp only at hstep
    all_goals first
      | (injection hstep with h
         injection h with h1 h2
         subst h1
         first
           | exact zone_invariant _ _
           | exact country_invariant _ _
           | exact family_invariant _ _ _
           | exact genus_invariant _ _
           | exact subspecies_invariant _ _ _
           | exact stateRecord_invariant _ _ _
           | exact countyRecord_invariant _ _ _
           | exact location_invariant _ _ _
           | exact firstDate_invariant _ _ _
           | exact lastDate_invariant _ _ _
           | exact name_invariant _ _
           | exact comment_invariant _ _ _
           | exact year_invariant _ _ _)
      | (cases hsv : StateValidator.validate v (some c) with
         | error e =>
           rw [hsv] at hstep
           simp [Except.map] at hstep
         | ok r2 =>
           rw [hsv] at hstep
           simp only [Except.map] at hstep
           injection hstep with h
           injection h with h1 h2
           subst h1
           exact state_invariant _ _ _ hsv)
      | (rcases hs : SpeciesValidator.validate env v (some c) with ⟨r2, o⟩
         rw [hs] at hstep
         have hinv : fieldInvariant r2 := by
           have hx := species_invariant env v (some c)
           rw [hs] at hx
           exact hx
         cases o <;>
           (injection hstep with h
            injection h with h1 h2
            subst h1
            exact hinv))
      | (rcases hs : CountyValidator.validate env v (some c) with ⟨r2, o⟩
         rw [hs] at hstep
         have hinv : fieldInvariant r2 := by
           have hx := county_invariant env v (some c)
           rw [hs] at hx
           exact hx
         cases o <;>
           (injection hstep with h
            injection h with h1 h2
            subst h1
            exact hinv))

theorem flagResult_rowInvariant (r : RowResult) (msg : Str) :
    rowInvariant (flagResult r msg) := by
  intro hv
  simp [flagResult]

theorem updateFirst_rowInvariant :
    ∀ (res : List RowResult) (idx : Nat) (msg : Str),
      (∀ r ∈ res, rowInvariant r) →
      ∀ r ∈ updateFirst res idx msg, rowInvariant r
  | [], _, _, _ => by simp [updateFirst]
  | a :: rest, idx, msg, h => by
    unfold updateFirst
    split
    · intro r hr
      rcases List.mem_cons.mp hr with h1 | h2
      · subst h1
        exact flagResult_rowInvariant _ _
      · exact h r (List.mem_cons_of_mem _ h2)
    · intro r hr
      rcases List.mem_cons.mp hr with h1 | h2
      · subst h1
        exact h _ (List.mem_cons_self _ _)
      · exact updateFirst_rowInvariant rest idx msg
          (fun r hr => h r (List.mem_cons_of_mem _ hr)) r h2

theorem flagRowAt_rowInvariant (res : List RowResult) (idx : Nat) (msg : Str)
    (h : ∀ r ∈ res, rowInvariant r) :
    ∀ r ∈ flagRowAt res idx msg, rowInvariant r := by
  rw [flagRowAt_eq_updateFirst]
  exact updateFirst_rowInvariant _ _ _ h

theorem foldl_preserves_rowInvariant {α : Type}
    (g : List RowResult → α → List RowResult)
    (hg : ∀ res a, (∀ r ∈ res, rowInvariant r) → ∀ r ∈ g res a, rowInvariant r) :
    ∀ (l : List α) (res : List RowResult),
      (∀ r ∈ res, rowInvariant r) → ∀ r ∈ l.foldl g res, rowInvariant r
  | [], _, h => h
  | a :: l, res, h =>
    foldl_preserves_rowInvariant g hg l (g res a) (hg res a h)

theorem processStateGroup_rowInvariant (df : List RawRow)
    (res : List RowResult) (L : List Nat)
    (h : ∀ r ∈ res, rowInvariant r) :
    ∀ r ∈ processStateGroup df res L, rowInvariant r := by
  simp only [processStateGroup]
  split
  · refine foldl_preserves_rowInvariant _ ?_ _ _ h
    intro res idx hres
    split
    · exact flagRowAt_rowInvariant _ _ _ hres
    · exact hres
  · exact h

theorem processCountyGroup_rowInvariant (df : List RawRow)
    (res : List RowResult) (L : List Nat)
    (h : ∀ r ∈ res, rowInvariant r) :
    ∀ r ∈ processCountyGroup df res L, rowInvariant r := by
  simp only [processCountyGroup]
  refine foldl_preserves_rowInvariant _ ?_ _ _ h
  intro res cg hres
  split
  · refine foldl_preserves_rowInvariant _ ?_ _ _ hres
    intro res idx hres2
    split
    · exact flagRowAt_rowInvariant _ _ _ hres2
    · exact hres2
  · exact hres

theorem validateRecordUniqueness_rowInvariant (df : List RawRow)
    (results : List RowResult) (h : ∀ r ∈ results, rowInvariant r) :
    ∀ r ∈ validateRecordUniqueness df results, rowInvariant r := by
  simp only [validateRecordUniqueness, validateCountyRecordsWith,
    validateStateRecordsWith]
  exact foldl_preserves_rowInvariant _
    (fun res (g : Str × List Nat) => processCountyGroup_rowInvariant df res g.2) _ _
    (foldl_preserves_rowInvariant _
      (fun res (g : Str × List Nat) => processStateGroup_rowInvariant df res g.2) _ _ h)

theorem hallucinationField_rowInvariant (cell : CellValue) (fld : Str)
    (allow : List Str) (r : RowResult) (h : rowInvariant r) :
    rowInvariant (hallucinationField cell fld allow r) := by
  simp only [hallucinationField]
  repeat' split
  all_goals first
    | exact h
    | (intro hv; simp)

theorem hallucinationRow_rowInvariant (row : RawRow) (r : RowResult)
    (h : rowInvariant r) : rowInvariant (hallucinationRow row r) :=
  hallucinationField_rowInvariant _ _ _ _
    (hallucinationField_rowInvariant _ _ _ _ h)

theorem validateHallucinations_rowInvariant (df : List RawRow)
    (results : List RowResult) (h : ∀ r ∈ results, rowInvariant r) :
    ∀ r ∈ validateHallucinations df results, rowInvariant r := by
  simp only [validateHallucinations]
  intro r hr
  rw [List.mem_map] at hr
  obtain ⟨p, hp, heq⟩ := hr
  subst heq
  have hmem : p.2 ∈ results := by
    rw [List.mem_enum_iff_get?] at hp
    exact List.get?_mem hp
  exact hallucinationRow_rowInvariant _ _ (h _ hmem)

/-- C9: every validator result satisfies the FieldValue invariant — an invalid
result carries at least one error, and a set correction always carries a
correction kind (normalization or correction) — and every row result produced
by `validate_row` and preserved through the QA record-uniqueness and
hallucination passes satisfies the row-level half of the invariant. -/
theorem field_value_invariant :
    (∀ v ctx, fieldInvariant (ZoneValidator.validate v ctx)) ∧
    (∀ v ctx, fieldInvariant (CountryValidator.validate v ctx)) ∧
    (∀ v ctx r, StateValidator.validate v ctx = Except.ok r →
      fieldInvariant r) ∧
    (∀ env v ctx, fieldInvariant (FamilyValidator.validate env v ctx)) ∧
    (∀ v ctx, fieldInvariant (GenusValidator.validate v ctx)) ∧
    (∀ env v ctx, fieldInvariant (SpeciesValidator.validate env v ctx).1) ∧
    (∀ env v ctx, fieldInvariant (SubspeciesValidator.validate env v ctx)) ∧
    (∀ env v ctx, fieldInvariant (CountyValidator.validate env v ctx).1) ∧
    (∀ env v ctx, fieldInvariant (StateRecordValidator.validate env v ctx)) ∧
    (∀ env v ctx, fieldInvariant (CountyRecordValidator.validate env v ctx)) ∧
    (∀ env v ctx, fieldInvariant (LocationValidator.validate env v ctx)) ∧
    (∀ env v ctx, fieldInvariant (FirstDateValidator.validate env v ctx)) ∧
    (∀ env v ctx, fieldInvariant (LastDateValidator.validate env v ctx)) ∧
    (∀ v ctx, fieldInvariant (NameValidator.validate v ctx)) ∧
    (∀ env v ctx, fieldInvariant (CommentValidator.validate env v ctx)) ∧
    (∀ env v ctx, fieldInvariant (YearValidator.validate env v ctx)) ∧
    (∀ env idx row, rowInvariant (validateRow env idx row)) ∧
    (∀ df results, (∀ r ∈ results, rowInvariant r) →
      ∀ r ∈ validateRecordUniqueness df results, rowInvariant r) ∧
    (∀ df results, (∀ r ∈ results, rowInvariant r) →
      ∀ r ∈ validateHallucinations df results, rowInvariant r) :=
  ⟨zone_invariant, country_invariant, state_invariant, family_invariant,
   genus_invariant, species_invariant, subspecies_invariant, county_invariant,
   stateRecord_invariant, countyRecord_invariant, location_invariant,
   firstDate_invariant, lastDate_invariant, name_invariant, comment_invariant,
   year_invariant, validateRow_rowInvariant,
   validateRecordUniqueness_rowInvariant, validateHallucinations_rowInvariant⟩

/-- Witness for C9: the invariant instantiated at concrete inputs — an invalid
Zone result has an error, a corrected Country result has a correction kind,
and a concrete row result keeps the row invariant through the QA uniqueness
pass. -/
theorem field_value_invariant_witness :
    fieldInvariant (ZoneValidator.validate (.str "0".data) none) ∧
    fieldInvariant (CountryValidator.validate (.str "usa".data) none) ∧
    rowInvariant (validateRow envC9 3 rowC9) ∧
    rowInvariant ({ rowIndex := 0, isValid := false,
                    errors := ["x".data] } : RowResult) := by
  refine ⟨field_value_invariant.1 _ _, field_value_invariant.2.1 _ _,
    field_value_invariant.2.2.2.2.2.2.2.2.2.2.2.2.2.2.2.2.1 envC9 3 rowC9,
    ?_⟩
  have h := field_value_invariant.2.2.2.2.2.2.2.2.2.2.2.2.2.2.2.2.2.1
    ([] : List RawRow)
    [({ rowIndex := 0, isValid := false, errors := ["x".data] } : RowResult)]
    (by intro r hr hv
        simp only [List.mem_singleton] at hr
        subst hr
        simp)
  exact h _ (by decide)


end Lepsox
